import Mathlib

/-!
# dbapi: a persistence access layer over a document store

Shallow embedding of the Go package `dbapi` (files `wrapper.go`, `utils.go`, `api.go`,
`camaraQodProvSession.go`, `camaraQodServiceSession.go`).

* Go functions returning `(result, error)` are embedded as functions returning the same pair,
  with `Option Error` for the `error` interface (`none` is `nil`).
* The MongoDB server and driver are external collaborators.  They are represented by an explicit
  `Server` state (documents per database and collection, a script of injected transport
  failures, and a log of the requests received) and by the `mongo.*` functions below, which give
  the documented behaviour of the driver calls the package makes.  Documents are modelled without
  the server-assigned `_id` field, which the package never reads or writes.
* The typed records of package `qodmodels/db` are not part of the sources; they are modelled
  from the data model of the specification and from the field names the sources use.
-/

namespace Dbapi

/-! ## Documents -/

/-- Untyped document values (the `interface{}` values found in a `bson.M`). -/
inductive Value where
  | null
  | bool (b : Bool)
  | int (n : Int)
  | str (s : String)
  | doc (fields : List (String × Value))

/-- The type `bson.M` / `map[string]interface{}`, and also a stored document. -/
abbrev Doc := List (String × Value)

mutual
/-- Structural equality test on values. -/
def Value.beq : Value → Value → Bool
  | .null, .null => true
  | .bool a, .bool b => a == b
  | .int a, .int b => a == b
  | .str a, .str b => a == b
  | .doc a, .doc b => Value.beqFields a b
  | _, _ => false
/-- Structural equality test on field lists. -/
def Value.beqFields : List (String × Value) → List (String × Value) → Bool
  | [], [] => true
  | (k, v) :: xs, (k2, v2) :: ys => k == k2 && Value.beq v v2 && Value.beqFields xs ys
  | _, _ => false
end

mutual
theorem Value.beq_iff : ∀ (a b : Value), Value.beq a b = true ↔ a = b
  | .null, b => by cases b <;> simp [Value.beq]
  | .bool x, b => by cases b <;> simp [Value.beq]
  | .int x, b => by cases b <;> simp [Value.beq]
  | .str x, b => by cases b <;> simp [Value.beq]
  | .doc xs, b => by
      cases b <;> simp [Value.beq]
      exact Value.beqFields_iff xs _
theorem Value.beqFields_iff :
    ∀ (a b : List (String × Value)), Value.beqFields a b = true ↔ a = b
  | [], b => by cases b <;> simp [Value.beqFields]
  | (k, v) :: xs, b => by
      cases b with
      | nil => simp [Value.beqFields]
      | cons y ys =>
        obtain ⟨k2, v2⟩ := y
        simp [Value.beqFields, Value.beq_iff v v2, Value.beqFields_iff xs ys, and_assoc]
end

instance : DecidableEq Value := fun a b => decidable_of_iff _ (Value.beq_iff a b)

/-- Go `error` values are represented by their message. -/
abbrev Error := String

/-- Value of a top-level field of a document. -/
def getField : Doc → String → Option Value
  | [], _ => none
  | (k', v) :: rest, k => if k' = k then some v else getField rest k

/-- Assign a top-level field: overwrite in place when present, append otherwise. -/
def setField : Doc → String → Value → Doc
  | [], k, v => [(k, v)]
  | (k', v') :: rest, k, v => if k' = k then (k, v) :: rest else (k', v') :: setField rest k v

/-- Assign all the fields of `fields`, in order (the `$set` update operator). -/
def setFields (fields : Doc) (d : Doc) : Doc :=
  fields.foldl (fun acc kv => setField acc kv.1 kv.2) d

/-- Split the characters of a field path at every dot. -/
def splitDots : List Char → List (List Char)
  | [] => [[]]
  | c :: cs =>
    if c = '.' then [] :: splitDots cs
    else match splitDots cs with
      | [] => [[c]]
      | seg :: segs => (c :: seg) :: segs

/-- The segments of a dotted field path such as `sessionReq.Qos`. -/
def splitPath (k : String) : List String := (splitDots k.data).map String.mk

/-- Value found by following a field path through embedded documents. -/
def getPath : Doc → List String → Option Value
  | _, [] => none
  | d, [k] => getField d k
  | d, k :: rest =>
    match getField d k with
    | some (.doc sub) => getPath sub rest
    | _ => none

/-- Equality filter: every entry of the filter names a field path whose value in the document
equals the entry's value. -/
def matchesFilter (filter : Doc) (d : Doc) : Bool :=
  filter.all (fun kv => decide (getPath d (splitPath kv.1) = some kv.2))

/-- The `$inc` update operator on one field: a missing field is created with the amount, a
numeric field is advanced by it, any other field is rejected by the server. -/
def incField (d : Doc) (k : String) (amount : Value) : Except Error Doc :=
  match amount with
  | .int a =>
    match getField d k with
    | none => .ok (setField d k (.int a))
    | some (.int n) => .ok (setField d k (.int (n + a)))
    | some _ => .error "Cannot apply $inc to a value of non-numeric type"
  | _ => .error "Cannot increment with non-numeric argument"

/-- Apply all the increments of `fields`, in order. -/
def incFields : Doc → Doc → Except Error Doc
  | [], d => .ok d
  | (k, amount) :: rest, d =>
    match incField d k amount with
    | .ok d' => incFields rest d'
    | .error e => .error e

/-- One update operator of an update document. -/
def applyOperator (op : String) (arg : Value) (d : Doc) : Except Error Doc :=
  if op = "$set" then
    match arg with
    | .doc fields => .ok (setFields fields d)
    | _ => .error "Modifiers operate on fields but we found another type instead"
  else if op = "$inc" then
    match arg with
    | .doc fields => incFields fields d
    | _ => .error "Modifiers operate on fields but we found another type instead"
  else .error ("Unknown modifier: " ++ op)

/-- Apply the operators of an update document, in order. -/
def applyOperators : Doc → Doc → Except Error Doc
  | [], d => .ok d
  | (op, arg) :: rest, d =>
    match applyOperator op arg d with
    | .ok d' => applyOperators rest d'
    | .error e => .error e

/-- Apply an update document (`$set` and `$inc` operators) to a stored document. -/
def applyUpdate (update : Doc) (d : Doc) : Except Error Doc :=
  match update with
  | [] => .error "update document must have at least one element"
  | _ => applyOperators update d

/-- Replace the first document satisfying `p`. -/
def replaceFirst (p : Doc → Bool) (new : Doc) : List Doc → List Doc
  | [] => []
  | x :: xs => if p x then new :: xs else x :: replaceFirst p new xs

/-- Remove the first document satisfying `p`. -/
def removeFirst (p : Doc → Bool) : List Doc → List Doc
  | [] => []
  | x :: xs => if p x then xs else x :: removeFirst p xs

/-! ## The document-store server and the driver -/

/-- Requests received by the server. -/
inductive Request where
  | connect (url : String)
  | disconnect
  | findOne (db coll : String) (filter : Doc)
  | find (db coll : String) (filter : Doc)
  | updateOne (db coll : String) (filter update : Doc) (upsert : Bool)
  | findOneAndUpdate (db coll : String) (filter update : Doc) (upsert returnAfter : Bool)
  | insertOne (db coll : String) (document : Doc)
  | insertMany (db coll : String) (documents : List Doc)
  | deleteOne (db coll : String) (filter : Doc)
  | deleteMany (db coll : String) (filter : Doc)
  | dropCollection (db coll : String)
  | countDocuments (db coll : String) (filter : Doc)
  | dropDatabase (db : String)
  deriving DecidableEq

/-- State of the external document store.  `data db coll` is the list of documents of a
collection (a collection that was never written is empty); `faults` scripts the outcome of the
coming requests (`some msg`: the request fails with `msg` and has no effect; `none` or an
exhausted script: the request is served); `log` lists the requests received so far. -/
structure Server where
  data : String → String → List Doc
  faults : List (Option Error)
  log : List Request

/-- A server holding no document. -/
def Server.empty (faults : List (Option Error)) : Server :=
  { data := fun _ _ => [], faults := faults, log := [] }

/-- Replace the documents of one collection. -/
def Server.setColl (s : Server) (db coll : String) (docs : List Doc) : Server :=
  { s with data := fun d c => if d = db ∧ c = coll then docs else s.data d c }

/-- The server receives a request: it is logged, and the next scripted outcome is consumed. -/
def Server.receive (s : Server) (r : Request) : Option Error × Server :=
  match s.faults with
  | [] => (none, { s with log := s.log ++ [r] })
  | f :: rest => (f, { s with faults := rest, log := s.log ++ [r] })

/-- The handle `*mongo.Client`; `live` is false once `Disconnect` was called on it. -/
structure MongoClient where
  live : Bool
  deriving DecidableEq

namespace mongo

/-- The driver error `mongo.ErrNoDocuments`. -/
def ErrNoDocuments : Error := "mongo: no documents in result"

/-- The driver error `mongo.ErrClientDisconnected`. -/
def ErrClientDisconnected : Error := "client is disconnected"

/-- The driver error `mongo.ErrEmptySlice`. -/
def ErrEmptySlice : Error := "must provide at least one element in input slice"

/-- A driver call: refused locally on a disconnected handle, sent to the server otherwise. -/
def call (c : MongoClient) (s : Server) (r : Request) : Option Error × Server :=
  if c.live then s.receive r else (some ErrClientDisconnected, s)

/-- Model of `mongo.Connect`. -/
def Connect (s : Server) (url : String) : (Option MongoClient × Option Error) × Server :=
  match s.receive (.connect url) with
  | (some e, s') => ((none, some e), s')
  | (none, s') => ((some { live := true }, none), s')

/-- Model of `(*mongo.Client).Disconnect`. -/
def Disconnect (c : MongoClient) (s : Server) : (MongoClient × Option Error) × Server :=
  match call c s .disconnect with
  | (some e, s') => (({ live := false }, some e), s')
  | (none, s') => (({ live := false }, none), s')

/-- Model of `Collection.FindOne(...).Decode`: the first matching document. -/
def FindOne (c : MongoClient) (s : Server) (db coll : String) (filter : Doc) :
    (Option Doc × Option Error) × Server :=
  match call c s (.findOne db coll filter) with
  | (some e, s') => ((none, some e), s')
  | (none, s') =>
    match (s'.data db coll).find? (matchesFilter filter) with
    | some d => ((some d, none), s')
    | none => ((none, some ErrNoDocuments), s')

/-- Model of `Collection.Find` followed by `Cursor.All`: all matching documents. -/
def Find (c : MongoClient) (s : Server) (db coll : String) (filter : Doc) :
    (List Doc × Option Error) × Server :=
  match call c s (.find db coll filter) with
  | (some e, s') => (([], some e), s')
  | (none, s') => (((s'.data db coll).filter (matchesFilter filter), none), s')

/-- Model of `Collection.UpdateOne`; the first component of the result is `MatchedCount`.
The first matching document is updated; without a match and with `upsert`, a document made of
the filter's fields and the update is inserted. -/
def UpdateOne (c : MongoClient) (s : Server) (db coll : String) (filter update : Doc)
    (upsert : Bool) : (Nat × Option Error) × Server :=
  match call c s (.updateOne db coll filter update upsert) with
  | (some e, s') => ((0, some e), s')
  | (none, s') =>
    match (s'.data db coll).find? (matchesFilter filter) with
    | some old =>
      match applyUpdate update old with
      | .ok new =>
        ((1, none), s'.setColl db coll (replaceFirst (matchesFilter filter) new (s'.data db coll)))
      | .error e => ((0, some e), s')
    | none =>
      if upsert then
        match applyUpdate update filter with
        | .ok new => ((0, none), s'.setColl db coll (s'.data db coll ++ [new]))
        | .error e => ((0, some e), s')
      else ((0, none), s')

/-- Model of `Collection.FindOneAndUpdate(...)` with result decoding, with the options
`Upsert` and `ReturnDocument` (`returnAfter` stands for `options.After`). -/
def FindOneAndUpdate (c : MongoClient) (s : Server) (db coll : String) (filter update : Doc)
    (upsert returnAfter : Bool) : (Option Doc × Option Error) × Server :=
  match call c s (.findOneAndUpdate db coll filter update upsert returnAfter) with
  | (some e, s') => ((none, some e), s')
  | (none, s') =>
    match (s'.data db coll).find? (matchesFilter filter) with
    | some old =>
      match applyUpdate update old with
      | .ok new =>
        ((some (if returnAfter then new else old), none),
          s'.setColl db coll (replaceFirst (matchesFilter filter) new (s'.data db coll)))
      | .error e => ((none, some e), s')
    | none =>
      if upsert then
        match applyUpdate update filter with
        | .ok new =>
          (if returnAfter then (some new, none) else (none, some ErrNoDocuments),
            s'.setColl db coll (s'.data db coll ++ [new]))
        | .error e => ((none, some e), s')
      else ((none, some ErrNoDocuments), s')

/-- Model of `Collection.InsertOne`. -/
def InsertOne (c : MongoClient) (s : Server) (db coll : String) (document : Doc) :
    Option Error × Server :=
  match call c s (.insertOne db coll document) with
  | (some e, s') => (some e, s')
  | (none, s') => (none, s'.setColl db coll (s'.data db coll ++ [document]))

/-- Model of `Collection.InsertMany`; the first component is `len(InsertedIDs)`. -/
def InsertMany (c : MongoClient) (s : Server) (db coll : String) (documents : List Doc) :
    (Nat × Option Error) × Server :=
  match documents with
  | [] => ((0, some ErrEmptySlice), s)
  | _ =>
    match call c s (.insertMany db coll documents) with
    | (some e, s') => ((0, some e), s')
    | (none, s') => ((documents.length, none), s'.setColl db coll (s'.data db coll ++ documents))

/-- Model of `Collection.DeleteOne`; the first component is `DeletedCount`. -/
def DeleteOne (c : MongoClient) (s : Server) (db coll : String) (filter : Doc) :
    (Nat × Option Error) × Server :=
  match call c s (.deleteOne db coll filter) with
  | (some e, s') => ((0, some e), s')
  | (none, s') =>
    if (s'.data db coll).any (matchesFilter filter) then
      ((1, none), s'.setColl db coll (removeFirst (matchesFilter filter) (s'.data db coll)))
    else ((0, none), s')

/-- Model of `Collection.DeleteMany`; the first component is `DeletedCount`. -/
def DeleteMany (c : MongoClient) (s : Server) (db coll : String) (filter : Doc) :
    (Nat × Option Error) × Server :=
  match call c s (.deleteMany db coll filter) with
  | (some e, s') => ((0, some e), s')
  | (none, s') =>
    (((s'.data db coll).countP (matchesFilter filter), none),
      s'.setColl db coll ((s'.data db coll).filter (fun d => !matchesFilter filter d)))

/-- Model of `Collection.Drop`. -/
def Drop (c : MongoClient) (s : Server) (db coll : String) : Option Error × Server :=
  match call c s (.dropCollection db coll) with
  | (some e, s') => (some e, s')
  | (none, s') => (none, s'.setColl db coll [])

/-- Model of `Collection.CountDocuments`. -/
def CountDocuments (c : MongoClient) (s : Server) (db coll : String) (filter : Doc) :
    (Nat × Option Error) × Server :=
  match call c s (.countDocuments db coll filter) with
  | (some e, s') => ((0, some e), s')
  | (none, s') => (((s'.data db coll).countP (matchesFilter filter), none), s')

/-- Model of `Database.Drop`. -/
def DropDatabase (c : MongoClient) (s : Server) (db : String) : Option Error × Server :=
  match call c s (.dropDatabase db) with
  | (some e, s') => (some e, s')
  | (none, s') => (none, { s' with data := fun d k => if d = db then [] else s'.data d k })

end mongo

/-! ## wrapper.go: the generic store client -/

/-- The struct `DbClient`; `client` is `none` for the nil handle. -/
structure DbClient where
  client : Option MongoClient
  DbName : String
  DbUrl : String
  deriving DecidableEq

/-- Outcome of a Go call that may end in a run-time panic instead of returning. -/
inductive Outcome (α : Type) where
  | ret (a : α)
  | panic (msg : String)
  deriving DecidableEq

/-- The error `errors.New("no client available")`. -/
def errNoClient : Error := "no client available"

def NewDbClient (dbName dbUrl : String) : DbClient :=
  { client := none, DbName := dbName, DbUrl := dbUrl }

namespace DbClient

def ConnectDB (d : DbClient) (s : Server) : (DbClient × Option Error) × Server :=
  match mongo.Connect s d.DbUrl with
  | ((c, some err), s') => (({ d with client := c }, some err), s')
  | ((c, none), s') => (({ d with client := c }, none), s')

def DisconnectDB (d : DbClient) (s : Server) : (DbClient × Option Error) × Server :=
  match d.client with
  | none => ((d, none), s)
  | some c =>
    match mongo.Disconnect c s with
    | ((c', some err), s') => (({ d with client := some c' }, some err), s')
    | ((c', none), s') => (({ d with client := some c' }, none), s')

def GetOne (d : DbClient) (s : Server) (collName : String) (filter : Doc) :
    (Option Doc × Option Error) × Server :=
  match d.client with
  | none => ((none, some errNoClient), s)
  | some c =>
    match mongo.FindOne c s d.DbName collName filter with
    | ((_, some err), s') => ((none, some err), s')
    | ((result, none), s') => ((result, none), s')

def GetMany (d : DbClient) (s : Server) (collName : String) (filter : Doc) :
    (Option (List Doc) × Option Error) × Server :=
  match d.client with
  | none => ((none, some errNoClient), s)
  | some c =>
    match mongo.Find c s d.DbName collName filter with
    | ((_, some err), s') => ((none, some err), s')
    | ((resultArray, none), s') => ((some resultArray, none), s')

/-- Update existing doc if found. If not found insert new one. -/
def UpdateInsertOne (d : DbClient) (s : Server) (collName : String) (filter putData : Doc) :
    (Nat × Option Error) × Server :=
  match d.client with
  | none => ((0, some errNoClient), s)
  | some c =>
    match mongo.UpdateOne c s d.DbName collName filter [("$set", .doc putData)] true with
    | ((_, some err), s') => ((0, some err), s')
    | ((matchedCount, none), s') => ((matchedCount, none), s')

/-- Update only if present. Do not insert. -/
def UpdateOne (d : DbClient) (s : Server) (collName : String) (filter putData : Doc) :
    (Nat × Option Error) × Server :=
  match d.client with
  | none => ((0, some errNoClient), s)
  | some c =>
    match mongo.UpdateOne c s d.DbName collName filter [("$set", .doc putData)] false with
    | ((_, some err), s') => ((0, some err), s')
    | ((matchedCount, none), s') => ((matchedCount, none), s')

/-- Document will be created if not present. -/
def GetIncrementedOne (d : DbClient) (s : Server) (collName : String) (filter toUpdate : Doc) :
    (Option Doc × Option Error) × Server :=
  match d.client with
  | none => ((none, some errNoClient), s)
  | some c =>
    match mongo.FindOneAndUpdate c s d.DbName collName filter toUpdate true true with
    | ((_, some err), s') => ((none, some err), s')
    | ((updatedDoc, none), s') => ((updatedDoc, none), s')

def InsertOne (d : DbClient) (s : Server) (collName : String) (putData : Doc) :
    Option Error × Server :=
  match d.client with
  | none => (some errNoClient, s)
  | some c => mongo.InsertOne c s d.DbName collName putData

def InsertMany (d : DbClient) (s : Server) (collName : String) (putData : List Doc) :
    Option Error × Server :=
  match d.client with
  | none => (some errNoClient, s)
  | some c =>
    match mongo.InsertMany c s d.DbName collName putData with
    | ((insertedIDs, none), s') =>
      if insertedIDs ≠ putData.length then
        (some ("only " ++ toString insertedIDs ++ " records inserted"), s')
      else (none, s')
    | ((_, some err), s') => (some err, s')

/-- The loop of `UpdateMany`: `i` is the index of the head of the remaining `putDataArray`. -/
def UpdateMany.loop (d : DbClient) (collName : String) (filterArray : List Doc) :
    Nat → List Doc → Server → Outcome (Option Error) × Server
  | _, [], s => (.ret none, s)
  | i, putData :: rest, s =>
    match filterArray[i]? with
    | none =>
      (.panic ("runtime error: index out of range [" ++ toString i ++ "] with length "
        ++ toString filterArray.length), s)
    | some filter =>
      match d.UpdateOne s collName filter putData with
      | ((_, some err), s') =>
        (.ret (some ("put failed on index[" ++ toString i ++ "] with error: " ++ err)), s')
      | ((matchCnt, none), s') =>
        if matchCnt = 0 then (.ret (some "no docs matching filter"), s')
        else UpdateMany.loop d collName filterArray (i + 1) rest s'

/-- Updates existing one if present. -/
def UpdateMany (d : DbClient) (s : Server) (collName : String)
    (filterArray putDataArray : List Doc) : Outcome (Option Error) × Server :=
  match d.client with
  | none => (.ret (some errNoClient), s)
  | some _ => UpdateMany.loop d collName filterArray 0 putDataArray s

def DeleteOne (d : DbClient) (s : Server) (collName : String) (filter : Doc) :
    (Nat × Option Error) × Server :=
  match d.client with
  | none => ((0, some errNoClient), s)
  | some c =>
    match mongo.DeleteOne c s d.DbName collName filter with
    | ((_, some err), s') => ((0, some err), s')
    | ((deletedCount, none), s') => ((deletedCount, none), s')

def DeleteMany (d : DbClient) (s : Server) (collName : String) (filter : Doc) :
    (Nat × Option Error) × Server :=
  match d.client with
  | none => ((0, some errNoClient), s)
  | some c =>
    match mongo.DeleteMany c s d.DbName collName filter with
    | ((_, some err), s') => ((0, some err), s')
    | ((deletedCount, none), s') => ((deletedCount, none), s')

def DropCollection (d : DbClient) (s : Server) (collName : String) : Option Error × Server :=
  match d.client with
  | none => (some errNoClient, s)
  | some c => mongo.Drop c s d.DbName collName

def CountRecords (d : DbClient) (s : Server) (collName : String) (filter : Doc) :
    (Nat × Option Error) × Server :=
  match d.client with
  | none => ((0, some errNoClient), s)
  | some c => mongo.CountDocuments c s d.DbName collName filter

def DropDb (d : DbClient) (s : Server) : Option Error × Server :=
  match d.client with
  | none => (some errNoClient, s)
  | some c => mongo.DropDatabase c s d.DbName

end DbClient

/-! ## utils.go -/

/-- Import path of the package, as reported by `runtime.FuncForPC(pc).Name()`. -/
def pkgPath : String := "github.com/sfnuser/dbapi"

/-- The function `errCtx`; `fn` and `lineno` are what `runtime.Caller(1)` reports, the name of
the calling function and the line of the call. -/
def errCtx (fn : String) (lineno : Nat) (err : Option Error) : Error :=
  let errString := "[" ++ fn ++ ":" ++ toString lineno ++ "] "
  match err with
  | some e => errString ++ e
  | none => errString

/-- Typed records that `encoding/json` turns into a JSON object; `json` gives the object, keyed
by the JSON names of the fields. -/
class JsonStruct (R : Type) where
  json : R → Doc

/-- Model of `json.Marshal` on a record (it cannot fail on plain structs). -/
def jsonMarshal {R : Type} [JsonStruct R] (data : R) : Doc × Option Error :=
  (JsonStruct.json data, none)

/-- Model of `json.Unmarshal` of a marshalled object into a `bson.M`. -/
def jsonUnmarshal (tmp : Doc) : Doc × Option Error := (tmp, none)

def toBsonM {R : Type} [JsonStruct R] (data : R) : Option Doc × Option Error :=
  match jsonMarshal data with
  | (_, some err) => (none, some (errCtx (pkgPath ++ ".toBsonM") 40 (some err)))
  | (tmp, none) =>
    match jsonUnmarshal tmp with
    | (_, some err) => (none, some (errCtx (pkgPath ++ ".toBsonM") 45 (some err)))
    | (putData, none) => (some putData, none)

/-- Typed records that `mapstructure` decodes from an untyped document. -/
class MapStruct (R : Type) where
  decode : Doc → Except Error R

/-- The function `decodeMapStructure`, for a `Result` of record type `R`; the decoded record is
returned next to the error. -/
def decodeMapStructure {R : Type} [MapStruct R] (data : Doc) : Option R × Option Error :=
  match MapStruct.decode data with
  | .ok r => (some r, none)
  | .error err => (none, some err)

/-- The function `decodeMapStructure`, for a `Result` that is a slice of records. -/
def decodeMapStructureList {R : Type} [MapStruct R] (data : List Doc) :
    Option (List R) × Option Error :=
  match data.mapM (fun x => (MapStruct.decode x : Except Error R)) with
  | .ok rs => (some rs, none)
  | .error err => (none, some err)

/-- Decoding of a string field: absent and null leave the zero value. -/
def decodeString (d : Doc) (k : String) : Except Error String :=
  match getField d k with
  | none => .ok ""
  | some .null => .ok ""
  | some (.str v) => .ok v
  | some _ => .error ("cannot decode field " ++ k ++ ": expected type string")

/-- Decoding of an integer field: absent and null leave the zero value. -/
def decodeInt (d : Doc) (k : String) : Except Error Int :=
  match getField d k with
  | none => .ok 0
  | some .null => .ok 0
  | some (.int v) => .ok v
  | some _ => .error ("cannot decode field " ++ k ++ ": expected type int")

/-! ## Records of package qodmodels/db -/

/-- Modelled from the spec: the record `db.ProvQoDAppServerData` (its declaration is in package
`qodmodels/db`, outside the sources): provisioned application-server data, keyed by the
application-server IPv4 address (document field `asIpv4Addr`, the key of the source's filter),
with one provisioning attribute (`region`, as in the specification's scenario). -/
structure ProvQoDAppServerData where
  AsIpv4Addr : String
  Region : String
  deriving DecidableEq

/-- Modelled from the spec: the session request embedded in a service session (document field
`sessionReq`), holding the QoS profile reference (field `Qos`, as in the source's filter path
`sessionReq.Qos`). -/
structure SessionReq where
  Qos : String
  deriving DecidableEq

/-- Modelled from the spec: the record `db.ServiceQoDUeSession` (declared outside the sources): a
service session, keyed by the session identifier, with the requesting UE address, the
subscriber/application id and the session request; document fields `sessionId`, `ueIpv4Addr`,
`scsAsId`, `sessionReq` as in the source's filters. -/
structure ServiceQoDUeSession where
  SessionId : String
  UeIpv4Addr : String
  ScsAsId : String
  SessionReq : SessionReq
  deriving DecidableEq

/-- Modelled from the spec: the record `db.ServiceQoDUeFlow` (declared outside the sources): a
UE flow keyed by the pair of UE address and subscriber/application id, with the flow counter;
document fields `ueIpv4Addr`, `scsAsId`, `FlowCounter` as in the source's filter and update. -/
structure ServiceQoDUeFlow where
  UeIpv4Addr : String
  ScsAsId : String
  FlowCounter : Int
  deriving DecidableEq

/-- Modelled from the spec: JSON names of the fields of `db.ProvQoDAppServerData`; the key is
written under the name the source filters on. -/
instance : JsonStruct ProvQoDAppServerData where
  json r := [("asIpv4Addr", .str r.AsIpv4Addr), ("region", .str r.Region)]

/-- Modelled from the spec: JSON name of the field of the session request, as in the source's
filter path `sessionReq.Qos`. -/
instance : JsonStruct SessionReq where
  json r := [("Qos", .str r.Qos)]

/-- Modelled from the spec: JSON names of the fields of `db.ServiceQoDUeSession`, those the
source filters on. -/
instance : JsonStruct ServiceQoDUeSession where
  json r := [("sessionId", .str r.SessionId), ("ueIpv4Addr", .str r.UeIpv4Addr),
    ("scsAsId", .str r.ScsAsId), ("sessionReq", .doc (JsonStruct.json r.SessionReq))]

/-- Modelled from the spec: JSON names of the fields of `db.ServiceQoDUeFlow`; the counter is
written under the name the source increments. -/
instance : JsonStruct ServiceQoDUeFlow where
  json r := [("ueIpv4Addr", .str r.UeIpv4Addr), ("scsAsId", .str r.ScsAsId),
    ("FlowCounter", .int r.FlowCounter)]

/-- Modelled from the spec: decoding of a document into `db.ProvQoDAppServerData`, field by
field; fields the record does not have are ignored. -/
instance : MapStruct ProvQoDAppServerData where
  decode d :=
    match decodeString d "asIpv4Addr", decodeString d "region" with
    | .ok a, .ok r => .ok { AsIpv4Addr := a, Region := r }
    | .error e, _ => .error e
    | _, .error e => .error e

/-- Modelled from the spec: decoding of an embedded document into the session request. -/
instance : MapStruct SessionReq where
  decode d :=
    match decodeString d "Qos" with
    | .ok q => .ok { Qos := q }
    | .error e => .error e

/-- Decoding of the embedded session request: absent and null leave the zero value. -/
def decodeSessionReq (d : Doc) (k : String) : Except Error SessionReq :=
  match getField d k with
  | none => .ok { Qos := "" }
  | some .null => .ok { Qos := "" }
  | some (.doc sub) => MapStruct.decode sub
  | some _ => .error ("cannot decode field " ++ k ++ ": expected a map")

/-- Modelled from the spec: decoding of a document into `db.ServiceQoDUeSession`, field by
field; fields the record does not have are ignored. -/
instance : MapStruct ServiceQoDUeSession where
  decode d :=
    match decodeString d "sessionId", decodeString d "ueIpv4Addr", decodeString d "scsAsId",
      decodeSessionReq d "sessionReq" with
    | .ok i, .ok u, .ok a, .ok r =>
      .ok { SessionId := i, UeIpv4Addr := u, ScsAsId := a, SessionReq := r }
    | .error e, _, _, _ => .error e
    | _, .error e, _, _ => .error e
    | _, _, .error e, _ => .error e
    | _, _, _, .error e => .error e

/-- Modelled from the spec: decoding of a document into `db.ServiceQoDUeFlow`, field by field;
fields the record does not have are ignored. -/
instance : MapStruct ServiceQoDUeFlow where
  decode d :=
    match decodeString d "ueIpv4Addr", decodeString d "scsAsId", decodeInt d "FlowCounter" with
    | .ok u, .ok a, .ok n => .ok { UeIpv4Addr := u, ScsAsId := a, FlowCounter := n }
    | .error e, _, _ => .error e
    | _, .error e, _ => .error e
    | _, _, .error e => .error e

/-! ## api.go -/

def COLLECTION_CAMARA_QOD_PROV_SESSION : String := "camara.qod.provisionedData.session"
def COLLECTION_CAMARA_QOD_SERVICE_SESSION : String := "camara.qod.service.session"
def COLLECTION_CAMARA_QOD_SERVICE_UE_FLOW : String := "camara.qod.service.ueflow"

/-- The struct `DbApi`. -/
structure DbApi where
  cli : DbClient
  deriving DecidableEq

def NewDbApi (dbName dbUrl : String) : DbApi := { cli := NewDbClient dbName dbUrl }

namespace DbApi

def GetWrapper (d : DbApi) : DbClient := d.cli

/-- Connect to DB. -/
def Connect (d : DbApi) (s : Server) : (DbApi × Option Error) × Server :=
  match d.cli.ConnectDB s with
  | ((cli', err), s') => (({ cli := cli' }, err), s')

/-- Disconnect (the error of `DisconnectDB` is dropped). -/
def Disconnect (d : DbApi) (s : Server) : DbApi × Server :=
  match d.cli.DisconnectDB s with
  | ((cli', _), s') => ({ cli := cli' }, s')

/-- Drop DB (the error of `DropDb` is dropped). -/
def DropDb (d : DbApi) (s : Server) : Server := (d.cli.DropDb s).2

end DbApi

/-! ## camaraQodProvSession.go -/

def decodeProveAppServerData (data : Doc) : Option ProvQoDAppServerData × Option Error :=
  match (decodeMapStructure data : Option ProvQoDAppServerData × Option Error) with
  | (_, some err) => (none, some (errCtx (pkgPath ++ ".decodeProveAppServerData") 31 (some err)))
  | (prov, none) => (prov, none)

namespace DbApi

/-- Get Provisioned UE data with asIpv4Addr as key. -/
def GetCamaraProvQoDAppServerData (d : DbApi) (s : Server) (asIpv4Addr : String) :
    (Option ProvQoDAppServerData × Option Error) × Server :=
  let filter : Doc := [("asIpv4Addr", .str asIpv4Addr)]
  match d.cli.GetOne s COLLECTION_CAMARA_QOD_PROV_SESSION filter with
  | ((_, some err), s') =>
    ((none, some (errCtx (pkgPath ++ ".(*DbApi).GetCamaraProvQoDAppServerData") 43 (some err))), s')
  | ((getData, none), s') =>
    match decodeProveAppServerData (getData.getD []) with
    | (_, some err) =>
      ((none,
        some (errCtx (pkgPath ++ ".(*DbApi).GetCamaraProvQoDAppServerData") 48 (some err))), s')
    | (prov, none) => ((prov, none), s')

def PutCamaraProvQoDAppServerData (d : DbApi) (s : Server) (asIpv4Addr : String)
    (data : ProvQoDAppServerData) : (Nat × Option Error) × Server :=
  let filter : Doc := [("asIpv4Addr", .str asIpv4Addr)]
  match toBsonM data with
  | (_, some err) =>
    ((0, some (errCtx (pkgPath ++ ".(*DbApi).PutCamaraProvQoDAppServerData") 59 (some err))), s)
  | (putData, none) =>
    d.cli.UpdateInsertOne s COLLECTION_CAMARA_QOD_PROV_SESSION filter (putData.getD [])

/-- The loop of `PutManyCamaraProvQoDAppServerData` encoding the records; `putData` holds the
documents encoded so far. -/
def PutManyCamaraProvQoDAppServerData.encode :
    List ProvQoDAppServerData → List Doc → List Doc × Option Error
  | [], putData => (putData, none)
  | val :: rest, putData =>
    match toBsonM val with
    | (_, some err) => (putData, some err)
    | (bsonData, none) =>
      PutManyCamaraProvQoDAppServerData.encode rest (putData ++ [bsonData.getD []])

/-- To provision multiple records at once. -/
def PutManyCamaraProvQoDAppServerData (d : DbApi) (s : Server)
    (data : List ProvQoDAppServerData) : Option Error × Server :=
  match PutManyCamaraProvQoDAppServerData.encode data [] with
  | (_, some err) => (some err, s)
  | (putData, none) => d.cli.InsertMany s COLLECTION_CAMARA_QOD_PROV_SESSION putData

end DbApi

/-! ## camaraQodServiceSession.go -/

def decodeServiceUeFlow (data : Doc) : Option ServiceQoDUeFlow × Option Error :=
  match (decodeMapStructure data : Option ServiceQoDUeFlow × Option Error) with
  | (_, some err) => (none, some (errCtx (pkgPath ++ ".decodeServiceUeFlow") 30 (some err)))
  | (serviceData, none) => (serviceData, none)

def decodeServiceUeSession (data : Doc) : Option ServiceQoDUeSession × Option Error :=
  match (decodeMapStructure data : Option ServiceQoDUeSession × Option Error) with
  | (_, some err) => (none, some (errCtx (pkgPath ++ ".decodeServiceUeSession") 41 (some err)))
  | (serviceData, none) => (serviceData, none)

namespace DbApi

def GetCamaraQoDServiceUeFlow (d : DbApi) (s : Server) (ueIpv4Addr scsAsId : String) :
    (Option ServiceQoDUeFlow × Option Error) × Server :=
  let filter : Doc := [("ueIpv4Addr", .str ueIpv4Addr), ("scsAsId", .str scsAsId)]
  match d.cli.GetOne s COLLECTION_CAMARA_QOD_SERVICE_UE_FLOW filter with
  | ((_, some err), s') =>
    ((none, some (errCtx (pkgPath ++ ".(*DbApi).GetCamaraQoDServiceUeFlow") 52 (some err))), s')
  | ((getData, none), s') =>
    match decodeServiceUeFlow (getData.getD []) with
    | (_, some err) =>
      ((none, some (errCtx (pkgPath ++ ".(*DbApi).GetCamaraQoDServiceUeFlow") 56 (some err))), s')
    | (serviceData, none) => ((serviceData, none), s')

def PutCamaraQoDServiceUeFlow (d : DbApi) (s : Server) (ueIpv4Addr scsAsId : String)
    (data : ServiceQoDUeFlow) : (Nat × Option Error) × Server :=
  let filter : Doc := [("ueIpv4Addr", .str ueIpv4Addr), ("scsAsId", .str scsAsId)]
  match toBsonM data with
  | (_, some err) =>
    ((0, some (errCtx (pkgPath ++ ".(*DbApi).PutCamaraQoDServiceUeFlow") 67 (some err))), s)
  | (putData, none) =>
    d.cli.UpdateInsertOne s COLLECTION_CAMARA_QOD_SERVICE_UE_FLOW filter (putData.getD [])

def GetCamaraQoDServiceIncrementUeFlow (d : DbApi) (s : Server) (ueIpv4Addr scsAsId : String) :
    (Option ServiceQoDUeFlow × Option Error) × Server :=
  let filter : Doc := [("ueIpv4Addr", .str ueIpv4Addr), ("scsAsId", .str scsAsId)]
  let update : Doc := [("$inc", .doc [("FlowCounter", .int 1)])]
  match d.cli.GetIncrementedOne s COLLECTION_CAMARA_QOD_SERVICE_UE_FLOW filter update with
  | ((_, some err), s') =>
    ((none,
      some (errCtx (pkgPath ++ ".(*DbApi).GetCamaraQoDServiceIncrementUeFlow") 83 (some err))), s')
  | ((getData, none), s') =>
    match decodeServiceUeFlow (getData.getD []) with
    | (_, some err) =>
      ((none,
        some (errCtx (pkgPath ++ ".(*DbApi).GetCamaraQoDServiceIncrementUeFlow") 87 (some err))),
        s')
    | (serviceData, none) => ((serviceData, none), s')

def GetCamaraQoDServiceUeSession (d : DbApi) (s : Server) (sessionId : String) :
    (Option ServiceQoDUeSession × Option Error) × Server :=
  let filter : Doc := [("sessionId", .str sessionId)]
  match d.cli.GetOne s COLLECTION_CAMARA_QOD_SERVICE_SESSION filter with
  | ((_, some err), s') =>
    ((none, some (errCtx (pkgPath ++ ".(*DbApi).GetCamaraQoDServiceUeSession") 97 (some err))), s')
  | ((getData, none), s') =>
    match decodeServiceUeSession (getData.getD []) with
    | (_, some err) =>
      ((none,
        some (errCtx (pkgPath ++ ".(*DbApi).GetCamaraQoDServiceUeSession") 101 (some err))), s')
    | (serviceData, none) => ((serviceData, none), s')

def PutCamaraQoDServiceUeSession (d : DbApi) (s : Server) (ueIpv4Addr sessionId : String)
    (data : ServiceQoDUeSession) : (Nat × Option Error) × Server :=
  let filter : Doc := [("ueIpv4Addr", .str ueIpv4Addr), ("sessionId", .str sessionId)]
  match toBsonM data with
  | (_, some err) =>
    ((0, some (errCtx (pkgPath ++ ".(*DbApi).PutCamaraQoDServiceUeSession") 112 (some err))), s)
  | (putData, none) =>
    d.cli.UpdateInsertOne s COLLECTION_CAMARA_QOD_SERVICE_SESSION filter (putData.getD [])

def DeleteCamaraQoDServiceUeSession (d : DbApi) (s : Server) (sessionId : String) :
    (Nat × Option Error) × Server :=
  let filter : Doc := [("sessionId", .str sessionId)]
  d.cli.DeleteOne s COLLECTION_CAMARA_QOD_SERVICE_SESSION filter

def GetNumCamaraQoDSericeUeSessions (d : DbApi) (s : Server) (ueIpv4Addr scsAsId : String) :
    (Nat × Option Error) × Server :=
  let filter : Doc := [("ueIpv4Addr", .str ueIpv4Addr), ("scsAsId", .str scsAsId)]
  match d.cli.CountRecords s COLLECTION_CAMARA_QOD_SERVICE_SESSION filter with
  | ((_, some err), s') =>
    ((0, some (errCtx (pkgPath ++ ".(*DbApi).GetNumCamaraQoDSericeUeSessions") 129 (some err))),
      s')
  | ((count, none), s') => ((count, none), s')

def GetAllCamaraQoDServiceUeSession (d : DbApi) (s : Server)
    (ueIpv4Addr scsAsId qosProfile : String) :
    (Option (List ServiceQoDUeSession) × Option Error) × Server :=
  let filter : Doc := [("ueIpv4Addr", .str ueIpv4Addr), ("scsAsId", .str scsAsId),
    ("sessionReq.Qos", .str qosProfile)]
  match d.cli.GetMany s COLLECTION_CAMARA_QOD_SERVICE_SESSION filter with
  | ((_, some err), s') =>
    ((none,
      some (errCtx (pkgPath ++ ".(*DbApi).GetAllCamaraQoDServiceUeSession") 141 (some err))), s')
  | ((getData, none), s') =>
    if (getData.getD []).length = 0 then ((none, none), s')
    else
      match (decodeMapStructureList (getData.getD []) :
          Option (List ServiceQoDUeSession) × Option Error) with
      | (_, some err) =>
        ((none,
          some (errCtx (pkgPath ++ ".(*DbApi).GetAllCamaraQoDServiceUeSession") 151 (some err))),
          s')
      | (ueSessions, none) => ((ueSessions, none), s')

def GetAllCamaraQoDServiceUeFlows (d : DbApi) (s : Server) :
    (Option (List ServiceQoDUeFlow) × Option Error) × Server :=
  let filter : Doc := []
  match d.cli.GetMany s COLLECTION_CAMARA_QOD_SERVICE_UE_FLOW filter with
  | ((_, some err), s') =>
    ((none, some (errCtx (pkgPath ++ ".(*DbApi).GetAllCamaraQoDServiceUeFlows") 159 (some err))),
      s')
  | ((getData, none), s') =>
    if (getData.getD []).length = 0 then ((none, none), s')
    else
      match (decodeMapStructureList (getData.getD []) :
          Option (List ServiceQoDUeFlow) × Option Error) with
      | (_, some err) =>
        ((none,
          some (errCtx (pkgPath ++ ".(*DbApi).GetAllCamaraQoDServiceUeFlows") 169 (some err))),
          s')
      | (ueFlows, none) => ((ueFlows, none), s')

end DbApi

/-! ## Sequences of facade operations -/

/-- The operations of the facade, with their arguments. -/
inductive Op where
  | Connect
  | Disconnect
  | DropDb
  | GetProv (asIpv4Addr : String)
  | PutProv (asIpv4Addr : String) (data : ProvQoDAppServerData)
  | PutManyProv (data : List ProvQoDAppServerData)
  | GetFlow (ueIpv4Addr scsAsId : String)
  | PutFlow (ueIpv4Addr scsAsId : String) (data : ServiceQoDUeFlow)
  | IncrementFlow (ueIpv4Addr scsAsId : String)
  | GetSession (sessionId : String)
  | PutSession (ueIpv4Addr sessionId : String) (data : ServiceQoDUeSession)
  | DeleteSession (sessionId : String)
  | NumSessions (ueIpv4Addr scsAsId : String)
  | AllSessions (ueIpv4Addr scsAsId qosProfile : String)
  | AllFlows
  deriving DecidableEq

/-- A facade instance together with the store it talks to. -/
structure World where
  api : DbApi
  srv : Server

/-- One facade call: the state it leaves behind. -/
def step (w : World) : Op → World
  | .Connect =>
    match w.api.Connect w.srv with
    | ((api', _), s') => { api := api', srv := s' }
  | .Disconnect =>
    match w.api.Disconnect w.srv with
    | (api', s') => { api := api', srv := s' }
  | .DropDb => { w with srv := w.api.DropDb w.srv }
  | .GetProv a => { w with srv := (w.api.GetCamaraProvQoDAppServerData w.srv a).2 }
  | .PutProv a data => { w with srv := (w.api.PutCamaraProvQoDAppServerData w.srv a data).2 }
  | .PutManyProv data => { w with srv := (w.api.PutManyCamaraProvQoDAppServerData w.srv data).2 }
  | .GetFlow u a => { w with srv := (w.api.GetCamaraQoDServiceUeFlow w.srv u a).2 }
  | .PutFlow u a data => { w with srv := (w.api.PutCamaraQoDServiceUeFlow w.srv u a data).2 }
  | .IncrementFlow u a =>
    { w with srv := (w.api.GetCamaraQoDServiceIncrementUeFlow w.srv u a).2 }
  | .GetSession i => { w with srv := (w.api.GetCamaraQoDServiceUeSession w.srv i).2 }
  | .PutSession u i data =>
    { w with srv := (w.api.PutCamaraQoDServiceUeSession w.srv u i data).2 }
  | .DeleteSession i => { w with srv := (w.api.DeleteCamaraQoDServiceUeSession w.srv i).2 }
  | .NumSessions u a => { w with srv := (w.api.GetNumCamaraQoDSericeUeSessions w.srv u a).2 }
  | .AllSessions u a q =>
    { w with srv := (w.api.GetAllCamaraQoDServiceUeSession w.srv u a q).2 }
  | .AllFlows => { w with srv := (w.api.GetAllCamaraQoDServiceUeFlows w.srv).2 }

/-- The state after a sequence of facade calls. -/
def run (w : World) (ops : List Op) : World := ops.foldl step w

/-- A fresh facade (`NewDbApi`) in front of an empty store. -/
def initWorld (dbName dbUrl : String) (faults : List (Option Error)) : World :=
  { api := NewDbApi dbName dbUrl, srv := Server.empty faults }

/-! ## Vocabulary for the statements about `UpdateMany` -/

/-- The server state reached once the pairs of indices below `i` have been sent through
`UpdateOne`, in index order. -/
def pairStates (d : DbClient) (collName : String) (filterArray putDataArray : List Doc)
    (s : Server) : Nat → Server
  | 0 => s
  | i + 1 =>
    match filterArray[i]?, putDataArray[i]? with
    | some filter, some putData =>
      (d.UpdateOne (pairStates d collName filterArray putDataArray s i) collName filter putData).2
    | _, _ => pairStates d collName filterArray putDataArray s i

/-- Pair `i` exists and its `UpdateOne`, issued after the pairs before it, returns no error and
a nonzero match count. -/
def PairMatched (d : DbClient) (collName : String) (filterArray putDataArray : List Doc)
    (s : Server) (i : Nat) : Prop :=
  ∃ filter putData, filterArray[i]? = some filter ∧ putDataArray[i]? = some putData ∧
    (d.UpdateOne (pairStates d collName filterArray putDataArray s i) collName filter putData).1.2
      = none ∧
    (d.UpdateOne (pairStates d collName filterArray putDataArray s i) collName filter putData).1.1
      ≠ 0

/-- Pair `i` exists and its `UpdateOne`, issued after the pairs before it, returns an error or
matches no document. -/
def PairFailed (d : DbClient) (collName : String) (filterArray putDataArray : List Doc)
    (s : Server) (i : Nat) : Prop :=
  ∃ filter putData, filterArray[i]? = some filter ∧ putDataArray[i]? = some putData ∧
    ((d.UpdateOne (pairStates d collName filterArray putDataArray s i) collName filter
        putData).1.2 ≠ none ∨
     (d.UpdateOne (pairStates d collName filterArray putDataArray s i) collName filter
        putData).1.1 = 0)

/-- The request that `UpdateOne` sends for pair `i`: a non-upserting update with `$set`. -/
def pairRequest (d : DbClient) (collName : String) (filterArray putDataArray : List Doc)
    (i : Nat) : Request :=
  .updateOne d.DbName collName (filterArray[i]?.getD []) [("$set", .doc (putDataArray[i]?.getD []))]
    false

/-! ## Vocabulary for the statements about the facade -/

/-- The server after it logged request `r`. -/
def Server.logged (s : Server) (r : Request) : Server := { s with log := s.log ++ [r] }

/-- A connected facade in front of a store that serves every request: the handle is present and
live, and no failure is scripted. -/
def Ready (d : DbApi) (s : Server) : Prop :=
  (∃ c, d.cli.client = some c ∧ c.live = true) ∧ s.faults = []

/-- Filter of the provisioned-data operations. -/
def provFilter (asIpv4Addr : String) : Doc := [("asIpv4Addr", .str asIpv4Addr)]

/-- Filter of the flow operations. -/
def flowFilter (ueIpv4Addr scsAsId : String) : Doc :=
  [("ueIpv4Addr", .str ueIpv4Addr), ("scsAsId", .str scsAsId)]

/-- Filter of `GetCamaraQoDServiceUeSession` and `DeleteCamaraQoDServiceUeSession`. -/
def sessionFilter (sessionId : String) : Doc := [("sessionId", .str sessionId)]

/-- Filter of `PutCamaraQoDServiceUeSession`. -/
def sessionPutFilter (ueIpv4Addr sessionId : String) : Doc :=
  [("ueIpv4Addr", .str ueIpv4Addr), ("sessionId", .str sessionId)]

/-- Update document of `GetCamaraQoDServiceIncrementUeFlow`. -/
def flowIncrement : Doc := [("$inc", .doc [("FlowCounter", .int 1)])]

/-- The flow document holding counter value `n` for the key `(ueIpv4Addr, scsAsId)`, as the
upsert of `GetCamaraQoDServiceIncrementUeFlow` creates it and its increments leave it. -/
def flowDoc (ueIpv4Addr scsAsId : String) (n : Int) : Doc :=
  [("ueIpv4Addr", .str ueIpv4Addr), ("scsAsId", .str scsAsId), ("FlowCounter", .int n)]

/-! ## Sample data -/

/-- A facade whose client is connected to the database `qod`. -/
def sampleApi : DbApi :=
  { cli := { client := some { live := true }, DbName := "qod", DbUrl := "mongodb://localhost" } }

/-- A store holding one document in collection `c` of database `qod`. -/
def sampleServer : Server :=
  { data := fun db coll => if db = "qod" ∧ coll = "c" then [[("k", .str "a")]] else [],
    faults := [], log := [] }

/-- A provisioned record for the application server `10.0.0.1`. -/
def sampleProv : ProvQoDAppServerData := { AsIpv4Addr := "10.0.0.1", Region := "eu" }

/-- A session `s1` requested by the UE `10.0.0.1`. -/
def sessionA : ServiceQoDUeSession :=
  { SessionId := "s1", UeIpv4Addr := "10.0.0.1", ScsAsId := "app1", SessionReq := { Qos := "QOS_E" } }

/-- A session with the same identifier `s1`, requested by the UE `10.0.0.2`. -/
def sessionB : ServiceQoDUeSession :=
  { SessionId := "s1", UeIpv4Addr := "10.0.0.2", ScsAsId := "app1", SessionReq := { Qos := "QOS_E" } }

/-- The state after connecting to an empty store and putting `sessionA` under its own key. -/
def worldWithSessionA : World :=
  run (initWorld "qod" "mongodb://localhost" []) [.Connect, .PutSession "10.0.0.1" "s1" sessionA]

/-- The state after connecting a fresh facade to an empty store. -/
def connectedWorld : World := run (initWorld "qod" "mongodb://localhost" []) [.Connect]

/-- The state after also putting `sessionB`, under the key of its own UE. -/
def worldWithTwoSessions : World :=
  run worldWithSessionA [.PutSession "10.0.0.2" "s1" sessionB]

/-! ## Vocabulary for the statements about sequences of operations -/

/-- The documents `l'` result from the documents `l` by an upserting update: the first document
matching `filter` is replaced by its update, or, when none matches, the update of the filter's
fields is appended. -/
def UpsertEffect (filter update : Doc) (l l' : List Doc) : Prop :=
  (∃ old new, l.find? (matchesFilter filter) = some old ∧ applyUpdate update old = .ok new
      ∧ l' = replaceFirst (matchesFilter filter) new l)
  ∨ (∃ new, l.find? (matchesFilter filter) = none ∧ applyUpdate update filter = .ok new
      ∧ l' = l ++ [new])

/-- Natural key of a provisioned-data document. -/
def provKey (x : Doc) : Option Value := getField x "asIpv4Addr"

/-- Natural key of a flow document. -/
def flowKey (x : Doc) : Option Value × Option Value :=
  (getField x "ueIpv4Addr", getField x "scsAsId")

/-- Session identifier of a session document. -/
def sessionKey (x : Doc) : Option Value := getField x "sessionId"

/-- The pair of fields that `PutCamaraQoDServiceUeSession` filters on. -/
def sessionPutKey (x : Doc) : Option Value × Option Value :=
  (getField x "ueIpv4Addr", getField x "sessionId")

/-- No two documents of the provisioned-data collection of database `db` have the same
`asIpv4Addr`. -/
def ProvKeysUnique (s : Server) (db : String) : Prop :=
  ((s.data db COLLECTION_CAMARA_QOD_PROV_SESSION).map provKey).Nodup

/-- No two documents of the flow collection have the same `(ueIpv4Addr, scsAsId)` pair. -/
def FlowKeysUnique (s : Server) (db : String) : Prop :=
  ((s.data db COLLECTION_CAMARA_QOD_SERVICE_UE_FLOW).map flowKey).Nodup

/-- No two documents of the session collection have the same `sessionId`. -/
def SessionKeysUnique (s : Server) (db : String) : Prop :=
  ((s.data db COLLECTION_CAMARA_QOD_SERVICE_SESSION).map sessionKey).Nodup

/-- No two documents of the session collection have the same `(ueIpv4Addr, sessionId)` pair. -/
def SessionPutKeysUnique (s : Server) (db : String) : Prop :=
  ((s.data db COLLECTION_CAMARA_QOD_SERVICE_SESSION).map sessionPutKey).Nodup

instance (s : Server) (db : String) : Decidable (ProvKeysUnique s db) := by
  unfold ProvKeysUnique; infer_instance
instance (s : Server) (db : String) : Decidable (FlowKeysUnique s db) := by
  unfold FlowKeysUnique; infer_instance
instance (s : Server) (db : String) : Decidable (SessionKeysUnique s db) := by
  unfold SessionKeysUnique; infer_instance
instance (s : Server) (db : String) : Decidable (SessionPutKeysUnique s db) := by
  unfold SessionPutKeysUnique; infer_instance

/-- The call carries its own key: a Put whose record holds the key passed as argument; every
operation other than a Put qualifies, except the bulk insert `PutManyCamaraProvQoDAppServerData`. -/
def Op.keyed : Op → Prop
  | .PutProv a data => data.AsIpv4Addr = a
  | .PutFlow u a data => data.UeIpv4Addr = u ∧ data.ScsAsId = a
  | .PutSession u i data => data.UeIpv4Addr = u ∧ data.SessionId = i
  | .PutManyProv _ => False
  | _ => True

/-- The stored flow counter of a key: the `FlowCounter` field of the first flow document
matching the key (what a Get of the key decodes). -/
def flowCounter (s : Server) (db ueIpv4Addr scsAsId : String) : Option Value :=
  ((s.data db COLLECTION_CAMARA_QOD_SERVICE_UE_FLOW).find?
    (matchesFilter (flowFilter ueIpv4Addr scsAsId))).bind (fun x => getField x "FlowCounter")

/-- What a facade operation may do to the documents `l` of collection `c` (of any database),
giving `l'`, when it changes them at all. -/
def OpEffect (op : Op) (c : String) (l l' : List Doc) : Prop :=
  match op with
  | .DropDb => l' = []
  | .PutProv a data =>
    c = COLLECTION_CAMARA_QOD_PROV_SESSION
      ∧ UpsertEffect (provFilter a) [("$set", .doc (JsonStruct.json data))] l l'
  | .PutManyProv _ => c = COLLECTION_CAMARA_QOD_PROV_SESSION ∧ ∃ docs, l' = l ++ docs
  | .PutFlow u a data =>
    c = COLLECTION_CAMARA_QOD_SERVICE_UE_FLOW
      ∧ UpsertEffect (flowFilter u a) [("$set", .doc (JsonStruct.json data))] l l'
  | .IncrementFlow u a =>
    c = COLLECTION_CAMARA_QOD_SERVICE_UE_FLOW ∧ UpsertEffect (flowFilter u a) flowIncrement l l'
  | .PutSession u i data =>
    c = COLLECTION_CAMARA_QOD_SERVICE_SESSION
      ∧ UpsertEffect (sessionPutFilter u i) [("$set", .doc (JsonStruct.json data))] l l'
  | .DeleteSession i =>
    c = COLLECTION_CAMARA_QOD_SERVICE_SESSION
      ∧ l' = removeFirst (matchesFilter (sessionFilter i)) l
  | _ => False

/-- A flow record of the key `(10.0.0.5, app1)` with counter 0. -/
def sampleFlow : ServiceQoDUeFlow :=
  { UeIpv4Addr := "10.0.0.5", ScsAsId := "app1", FlowCounter := 0 }

/-- The state after connecting and provisioning the same record twice in one bulk insert. -/
def worldAfterBulkInsert : World :=
  run (initWorld "qod" "mongodb://localhost" []) [.Connect, .PutManyProv [sampleProv, sampleProv]]

/-- The state after connecting and putting `sampleFlow` under its own key and then under the key
of another UE. -/
def worldAfterFlowPuts : World :=
  run (initWorld "qod" "mongodb://localhost" [])
    [.Connect, .PutFlow "10.0.0.5" "app1" sampleFlow, .PutFlow "10.0.0.6" "app1" sampleFlow]

/-- The state after connecting and incrementing the flow counter of `(10.0.0.5, app1)` twice. -/
def worldAfterTwoIncrements : World :=
  run (initWorld "qod" "mongodb://localhost" [])
    [.Connect, .IncrementFlow "10.0.0.5" "app1", .IncrementFlow "10.0.0.5" "app1"]

/-! ## Theorems -/

/-- C1: on a `DbClient` whose client handle is nil, each of the thirteen store operations returns
the error "no client available" with a zero/nil result, and the server is left exactly as it
was: no request is logged, no document changes. -/
theorem nil_client_operations_fail (d : DbClient) (s : Server) (hnil : d.client = none)
    (collName : String) (filter putData toUpdate : Doc) (putMany filterArray putDataArray : List Doc) :
    d.GetOne s collName filter = ((none, some "no client available"), s)
    ∧ d.GetMany s collName filter = ((none, some "no client available"), s)
    ∧ d.UpdateInsertOne s collName filter putData = ((0, some "no client available"), s)
    ∧ d.UpdateOne s collName filter putData = ((0, some "no client available"), s)
    ∧ d.GetIncrementedOne s collName filter toUpdate = ((none, some "no client available"), s)
    ∧ d.InsertOne s collName putData = (some "no client available", s)
    ∧ d.InsertMany s collName putMany = (some "no client available", s)
    ∧ d.UpdateMany s collName filterArray putDataArray
        = (.ret (some "no client available"), s)
    ∧ d.DeleteOne s collName filter = ((0, some "no client available"), s)
    ∧ d.DeleteMany s collName filter = ((0, some "no client available"), s)
    ∧ d.DropCollection s collName = (some "no client available", s)
    ∧ d.CountRecords s collName filter = ((0, some "no client available"), s)
    ∧ d.DropDb s = (some "no client available", s) := by
  simp [DbClient.GetOne, DbClient.GetMany, DbClient.UpdateInsertOne, DbClient.UpdateOne,
    DbClient.GetIncrementedOne, DbClient.InsertOne, DbClient.InsertMany, DbClient.UpdateMany,
    DbClient.DeleteOne, DbClient.DeleteMany, DbClient.DropCollection, DbClient.CountRecords,
    DbClient.DropDb, hnil, errNoClient]

/-- C1 at a client that was created and never connected. -/
theorem nil_client_operations_fail_witness :
    (NewDbClient "qod" "mongodb://localhost").client = none
    ∧ (NewDbClient "qod" "mongodb://localhost").GetOne (Server.empty [])
        "camara.qod.service.session" [("sessionId", .str "s1")]
        = ((none, some "no client available"), Server.empty []) :=
  ⟨rfl, (nil_client_operations_fail (NewDbClient "qod" "mongodb://localhost") (Server.empty [])
    rfl "camara.qod.service.session" [("sessionId", .str "s1")] [] [] [] [] []).1⟩

/-! ### The server and the driver calls -/

theorem receive_data (s : Server) (r : Request) : (s.receive r).2.data = s.data := by
  unfold Server.receive; split <;> rfl

theorem receive_log (s : Server) (r : Request) : (s.receive r).2.log = s.log ++ [r] := by
  unfold Server.receive; split <;> rfl

theorem call_data (c : MongoClient) (s : Server) (r : Request) :
    (mongo.call c s r).2.data = s.data := by
  unfold mongo.call; split
  · exact receive_data s r
  · rfl

theorem call_log (c : MongoClient) (s : Server) (r : Request) :
    (mongo.call c s r).2.log = s.log ++ (if c.live then [r] else []) := by
  unfold mongo.call; split
  · exact receive_log s r
  · simp

theorem applyUpdate_set (putData d : Doc) :
    applyUpdate [("$set", .doc putData)] d = .ok (setFields putData d) := by
  simp [applyUpdate, applyOperators, applyOperator]

theorem replaceFirst_length (p : Doc → Bool) (new : Doc) (l : List Doc) :
    (replaceFirst p new l).length = l.length := by
  induction l with
  | nil => rfl
  | cons x xs ih => unfold replaceFirst; split <;> simp [ih]

/-! ### UpdateOne -/

theorem UpdateOne_log (d : DbClient) (c : MongoClient) (hc : d.client = some c) (s : Server)
    (collName : String) (filter putData : Doc) :
    (d.UpdateOne s collName filter putData).2.log
      = s.log ++ (if c.live then
          [.updateOne d.DbName collName filter [("$set", .doc putData)] false] else []) := by
  have h := call_log c s (.updateOne d.DbName collName filter [("$set", .doc putData)] false)
  simp only [DbClient.UpdateOne, hc, mongo.UpdateOne, applyUpdate_set]
  generalize mongo.call c s _ = r at h ⊢
  obtain ⟨e, s1⟩ := r
  cases e with
  | some e => simpa using h
  | none =>
    simp only
    cases hf : List.find? (matchesFilter filter) (s1.data d.DbName collName) with
    | none => simpa using h
    | some old => simpa [Server.setColl] using h

theorem UpdateOne_fail_data (d : DbClient) (s : Server) (collName : String)
    (filter putData : Doc)
    (h : (d.UpdateOne s collName filter putData).1.2 ≠ none
      ∨ (d.UpdateOne s collName filter putData).1.1 = 0) :
    (d.UpdateOne s collName filter putData).2.data = s.data := by
  revert h
  unfold DbClient.UpdateOne
  cases hc : d.client with
  | none => simp
  | some c =>
    have hd := call_data c s (.updateOne d.DbName collName filter [("$set", .doc putData)] false)
    simp only [mongo.UpdateOne, applyUpdate_set]
    generalize mongo.call c s _ = r at hd ⊢
    obtain ⟨e, s1⟩ := r
    cases e with
    | some e => intro _; simpa using hd
    | none =>
      simp only
      cases hf : List.find? (matchesFilter filter) (s1.data d.DbName collName) with
      | none => intro _; simpa using hd
      | some old => simp

theorem UpdateOne_length (d : DbClient) (s : Server) (collName : String)
    (filter putData : Doc) (db coll : String) :
    ((d.UpdateOne s collName filter putData).2.data db coll).length
      = (s.data db coll).length := by
  unfold DbClient.UpdateOne
  cases hc : d.client with
  | none => simp
  | some c =>
    have hd := call_data c s (.updateOne d.DbName collName filter [("$set", .doc putData)] false)
    simp only [mongo.UpdateOne, applyUpdate_set]
    generalize mongo.call c s _ = r at hd ⊢
    obtain ⟨e, s1⟩ := r
    simp only at hd
    cases e with
    | some e => simp [hd]
    | none =>
      simp only
      cases hf : List.find? (matchesFilter filter) (s1.data d.DbName collName) with
      | none => simp [hd]
      | some old =>
        simp only [Server.setColl]
        split
        · rename_i h; obtain ⟨h1, h2⟩ := h; subst h1 h2
          simp [replaceFirst_length, hd]
        · simp [hd]

/-! ### UpdateMany -/

theorem pairStates_succ (d : DbClient) (collName : String) (fa pa : List Doc) (s : Server)
    (i : Nat) (f p : Doc) (hf : fa[i]? = some f) (hp : pa[i]? = some p) :
    pairStates d collName fa pa s (i + 1)
      = (d.UpdateOne (pairStates d collName fa pa s i) collName f p).2 := by
  simp [pairStates, hf, hp]

theorem UpdateMany_loop_cases (d : DbClient) (collName : String) (fa pa : List Doc)
    (s : Server) :
    ∀ (rest : List Doc) (i : Nat), pa.drop i = rest → i ≤ pa.length →
    ∀ (o : Outcome (Option Error)) (s' : Server),
    DbClient.UpdateMany.loop d collName fa i rest (pairStates d collName fa pa s i) = (o, s') →
      (o = .ret none ∧ (∀ j, i ≤ j → j < pa.length → PairMatched d collName fa pa s j)
        ∧ s' = pairStates d collName fa pa s pa.length)
      ∨ (∃ e k, o = .ret (some e) ∧ i ≤ k ∧ k < pa.length
          ∧ (∀ j, i ≤ j → j < k → PairMatched d collName fa pa s j)
          ∧ PairFailed d collName fa pa s k
          ∧ s' = pairStates d collName fa pa s (k + 1))
      ∨ (∃ m k, o = .panic m ∧ i ≤ k ∧ k < pa.length ∧ fa.length ≤ k
          ∧ (∀ j, i ≤ j → j < k → PairMatched d collName fa pa s j)
          ∧ s' = pairStates d collName fa pa s k) := by
  intro rest
  induction rest with
  | nil =>
    intro i hdrop hi o s' h
    have hlen : i = pa.length := by
      have := List.drop_eq_nil_iff.mp hdrop
      omega
    simp only [DbClient.UpdateMany.loop, Prod.mk.injEq] at h
    left
    refine ⟨h.1.symm, ?_, ?_⟩
    · intro j h1 h2; omega
    · rw [← h.2, hlen]
  | cons p rest ih =>
    intro i hdrop hi o s' h
    have hilt : i < pa.length := by
      by_contra hcon
      have : pa.drop i = [] := List.drop_eq_nil_iff.mpr (by omega)
      rw [this] at hdrop; cases hdrop
    have hp : pa[i]? = some p := by
      rw [← List.head?_drop, hdrop]; rfl
    have hdrop' : pa.drop (i + 1) = rest := by
      rw [← List.drop_drop 1 i pa, hdrop]; rfl
    unfold DbClient.UpdateMany.loop at h
    cases hf : fa[i]? with
    | none =>
      simp only [hf, Prod.mk.injEq] at h
      right; right
      refine ⟨_, i, h.1.symm, le_refl _, hilt, ?_, ?_, h.2.symm⟩
      · exact List.getElem?_eq_none_iff.mp hf
      · intro j h1 h2; omega
    | some f =>
      simp only [hf] at h
      have hsucc := pairStates_succ d collName fa pa s i f p hf hp
      rcases hu : d.UpdateOne (pairStates d collName fa pa s i) collName f p with ⟨⟨n, e⟩, s1⟩
      rw [hu] at h hsucc
      simp only at hsucc
      cases e with
      | some err =>
        simp only [Prod.mk.injEq] at h
        right; left
        refine ⟨_, i, h.1.symm, le_refl _, hilt, ?_, ?_, ?_⟩
        · intro j h1 h2; omega
        · exact ⟨f, p, hf, hp, Or.inl (by rw [hu]; simp)⟩
        · rw [hsucc]; exact h.2.symm
      | none =>
        simp only at h
        by_cases hn : n = 0
        · simp only [hn, if_true, Prod.mk.injEq] at h
          right; left
          refine ⟨_, i, h.1.symm, le_refl _, hilt, ?_, ?_, ?_⟩
          · intro j h1 h2; omega
          · exact ⟨f, p, hf, hp, Or.inr (by rw [hu]; simp [hn])⟩
          · rw [hsucc]; exact h.2.symm
        · simp only [hn, if_false] at h
          rw [← hsucc] at h
          have hm : PairMatched d collName fa pa s i :=
            ⟨f, p, hf, hp, by rw [hu], by rw [hu]; exact hn⟩
          have hall : ∀ k, (∀ j, i + 1 ≤ j → j < k → PairMatched d collName fa pa s j) →
              ∀ j, i ≤ j → j < k → PairMatched d collName fa pa s j := by
            intro k hk j h1 h2
            by_cases hji : j = i
            · rw [hji]; exact hm
            · exact hk j (by omega) h2
          rcases ih (i + 1) hdrop' hilt o s' h with ⟨h1, h2, h3⟩ | ⟨e, k, h1, h2, h3, h4, h5, h6⟩
            | ⟨m, k, h1, h2, h3, h4, h5, h6⟩
          · exact Or.inl ⟨h1, hall _ h2, h3⟩
          · exact Or.inr (Or.inl ⟨e, k, h1, by omega, h3, hall _ h4, h5, h6⟩)
          · exact Or.inr (Or.inr ⟨m, k, h1, by omega, h3, h4, hall _ h5, h6⟩)

theorem pairStates_length (d : DbClient) (collName : String) (fa pa : List Doc) (s : Server)
    (db coll : String) (k : Nat) :
    ((pairStates d collName fa pa s k).data db coll).length = (s.data db coll).length := by
  induction k with
  | zero => rfl
  | succ k ih =>
    unfold pairStates
    split
    · rw [UpdateOne_length, ih]
    · exact ih

theorem pairStates_log (d : DbClient) (c : MongoClient) (hc : d.client = some c)
    (collName : String) (fa pa : List Doc) (s : Server) (k : Nat)
    (hex : ∀ j, j < k → ∃ f p, fa[j]? = some f ∧ pa[j]? = some p) :
    (pairStates d collName fa pa s k).log
      = s.log ++ (if c.live then (List.range k).map (pairRequest d collName fa pa) else []) := by
  induction k with
  | zero => simp [pairStates]
  | succ k ih =>
    obtain ⟨f, p, hf, hp⟩ := hex k (Nat.lt_succ_self k)
    rw [pairStates_succ d collName fa pa s k f p hf hp, UpdateOne_log d c hc,
      ih (fun j hj => hex j (Nat.lt_succ_of_lt hj))]
    by_cases hl : c.live = true
    · simp [hl, List.range_succ, pairRequest, hf, hp]
    · simp [hl]

theorem UpdateMany_cases (d : DbClient) (c : MongoClient) (hc : d.client = some c)
    (s : Server) (collName : String) (fa pa : List Doc) :
    ((d.UpdateMany s collName fa pa).1 = .ret none
        ∧ (∀ j, j < pa.length → PairMatched d collName fa pa s j)
        ∧ (d.UpdateMany s collName fa pa).2 = pairStates d collName fa pa s pa.length)
      ∨ (∃ e k, (d.UpdateMany s collName fa pa).1 = .ret (some e) ∧ k < pa.length
          ∧ (∀ j, j < k → PairMatched d collName fa pa s j)
          ∧ PairFailed d collName fa pa s k
          ∧ (d.UpdateMany s collName fa pa).2 = pairStates d collName fa pa s (k + 1))
      ∨ (∃ m k, (d.UpdateMany s collName fa pa).1 = .panic m ∧ k < pa.length ∧ fa.length ≤ k
          ∧ (∀ j, j < k → PairMatched d collName fa pa s j)
          ∧ (d.UpdateMany s collName fa pa).2 = pairStates d collName fa pa s k) := by
  have h := UpdateMany_loop_cases d collName fa pa s pa 0 rfl (Nat.zero_le _)
    (d.UpdateMany s collName fa pa).1 (d.UpdateMany s collName fa pa).2
    (by simp [DbClient.UpdateMany, hc, pairStates])
  rcases h with ⟨h1, h2, h3⟩ | ⟨e, k, h1, _, h3, h4, h5, h6⟩ | ⟨m, k, h1, _, h3, h4, h5, h6⟩
  · exact Or.inl ⟨h1, fun j hj => h2 j (Nat.zero_le _) hj, h3⟩
  · exact Or.inr (Or.inl ⟨e, k, h1, h3, fun j hj => h4 j (Nat.zero_le _) hj, h5, h6⟩)
  · exact Or.inr (Or.inr ⟨m, k, h1, h3, h4, fun j hj => h5 j (Nat.zero_le _) hj, h6⟩)

theorem PairMatched_not_failed (d : DbClient) (collName : String) (fa pa : List Doc)
    (s : Server) (k : Nat) (hm : PairMatched d collName fa pa s k)
    (hf : PairFailed d collName fa pa s k) : False := by
  obtain ⟨f, p, h1, h2, h3, h4⟩ := hm
  obtain ⟨f', p', h1', h2', h5⟩ := hf
  rw [h1] at h1'; rw [h2] at h2'
  cases h1'; cases h2'
  rcases h5 with h5 | h5
  · exact h5 h3
  · exact h4 h5

/-- C8: on a connected client, `UpdateMany` sends its pairs through `UpdateOne` in index order
and stops at the first pair whose update returns an error or matches no document.  It returns
nil exactly when every pair matched a document without error; when it returns an error, some
pair `i` failed after all pairs before it matched, the server is in the state reached right
after the attempt on pair `i` (`pairStates` at `i + 1`: nothing later was sent), the documents
are those left by the updates of pairs `0..i-1`, and since `UpdateOne` never inserts, no
collection changes its number of documents. -/
theorem UpdateMany_aborts_at_first_failure (d : DbClient) (c : MongoClient)
    (hc : d.client = some c) (s : Server) (collName : String) (fa pa : List Doc) :
    ((d.UpdateMany s collName fa pa).1 = .ret none
        ↔ ∀ i, i < pa.length → PairMatched d collName fa pa s i)
    ∧ (∀ e, (d.UpdateMany s collName fa pa).1 = .ret (some e) →
        ∃ i, i < pa.length
          ∧ (∀ j, j < i → PairMatched d collName fa pa s j)
          ∧ PairFailed d collName fa pa s i
          ∧ (d.UpdateMany s collName fa pa).2 = pairStates d collName fa pa s (i + 1)
          ∧ (d.UpdateMany s collName fa pa).2.data = (pairStates d collName fa pa s i).data
          ∧ (d.UpdateMany s collName fa pa).2.log
              = s.log ++ (if c.live then
                  (List.range (i + 1)).map (pairRequest d collName fa pa) else []))
    ∧ (∀ db coll, ((d.UpdateMany s collName fa pa).2.data db coll).length
        = (s.data db coll).length) := by
  have hcases := UpdateMany_cases d c hc s collName fa pa
  refine ⟨⟨?_, ?_⟩, ?_, ?_⟩
  · intro hret
    rcases hcases with ⟨_, h2, _⟩ | ⟨e, k, h1, _⟩ | ⟨m, k, h1, _⟩
    · exact h2
    · rw [hret] at h1; cases h1
    · rw [hret] at h1; cases h1
  · intro hall
    rcases hcases with ⟨h1, _⟩ | ⟨e, k, _, h2, _, h4, _⟩ | ⟨m, k, _, h2, h3, _⟩
    · exact h1
    · exact (PairMatched_not_failed d collName fa pa s k (hall k h2) h4).elim
    · obtain ⟨f, _, hf, _⟩ := hall k h2
      have := List.getElem?_eq_none_iff.mpr h3
      rw [this] at hf; cases hf
  · intro e hret
    rcases hcases with ⟨h1, _⟩ | ⟨e', k, _, h2, h3, h4, h5⟩ | ⟨m, k, h1, _⟩
    · rw [hret] at h1; cases h1
    · refine ⟨k, h2, h3, h4, h5, ?_, ?_⟩
      · obtain ⟨f, p, hf, hp, hfail⟩ := h4
        rw [h5, pairStates_succ d collName fa pa s k f p hf hp]
        exact UpdateOne_fail_data d _ collName f p hfail
      · rw [h5]
        apply pairStates_log d c hc
        intro j hj
        by_cases hjk : j = k
        · obtain ⟨f, p, hf, hp, _⟩ := h4
          exact ⟨f, p, hjk ▸ hf, hjk ▸ hp⟩
        · obtain ⟨f, p, hf, hp, _⟩ := h3 j (by omega)
          exact ⟨f, p, hf, hp⟩
    · rw [hret] at h1; cases h1
  · intro db coll
    rcases hcases with ⟨_, _, h⟩ | ⟨_, _, _, _, _, _, h⟩ | ⟨_, _, _, _, _, _, h⟩ <;>
      rw [h, pairStates_length]

theorem UpdateMany_loop_take (d : DbClient) (collName : String) (fa : List Doc) (n : Nat) :
    ∀ (rest : List Doc) (i : Nat) (s : Server), i + rest.length ≤ n →
      DbClient.UpdateMany.loop d collName (fa.take n) i rest s
        = DbClient.UpdateMany.loop d collName fa i rest s := by
  by_cases hn : fa.length ≤ n
  · intro rest i s _
    rw [List.take_of_length_le hn]
  · intro rest
    induction rest with
    | nil => intro i s _; simp [DbClient.UpdateMany.loop]
    | cons p rest ih =>
      intro i s hi
      simp only [List.length_cons] at hi
      have hin : i < n := by omega
      have hif : i < fa.length := by omega
      have h1 : (fa.take n)[i]? = some fa[i] := by
        rw [List.getElem?_take_of_lt hin]
        exact List.getElem?_eq_getElem hif
      have h2 : fa[i]? = some fa[i] := List.getElem?_eq_getElem hif
      unfold DbClient.UpdateMany.loop
      simp only [h1, h2]
      rcases d.UpdateOne s collName fa[i] p with ⟨⟨m, e⟩, s1⟩
      cases e with
      | some err => rfl
      | none =>
        simp only
        split
        · rfl
        · exact ih (i + 1) s1 (by omega)

/-- C10: on a connected client, when `filterArray` is at least as long as `putDataArray`,
`UpdateMany` never indexes `filterArray` out of range; the requests it sends are the non-upserting
updates of pairs `0..k-1` for some `k` at most `len(putDataArray)`, the `i`-th built from
`filterArray[i]` and `putDataArray[i]`; filters beyond `len(putDataArray)` are ignored.
The index-out-of-range panic occurs only when `filterArray` is shorter than `putDataArray`. -/
theorem UpdateMany_index_in_range (d : DbClient) (c : MongoClient) (hc : d.client = some c)
    (s : Server) (collName : String) (fa pa : List Doc) :
    (pa.length ≤ fa.length →
      (∀ m, (d.UpdateMany s collName fa pa).1 ≠ .panic m)
      ∧ (∃ k, k ≤ pa.length ∧ (d.UpdateMany s collName fa pa).2.log
          = s.log ++ (if c.live then (List.range k).map (pairRequest d collName fa pa) else []))
      ∧ d.UpdateMany s collName (fa.take pa.length) pa = d.UpdateMany s collName fa pa)
    ∧ (∀ m, (d.UpdateMany s collName fa pa).1 = .panic m → fa.length < pa.length) := by
  have hcases := UpdateMany_cases d c hc s collName fa pa
  have hpanic : ∀ m, (d.UpdateMany s collName fa pa).1 = .panic m → fa.length < pa.length := by
    intro m hm
    rcases hcases with ⟨h1, _⟩ | ⟨e, k, h1, _⟩ | ⟨m', k, _, h2, h3, _⟩
    · rw [hm] at h1; cases h1
    · rw [hm] at h1; cases h1
    · omega
  refine ⟨fun hlen => ⟨?_, ?_, ?_⟩, hpanic⟩
  · intro m hm
    have := hpanic m hm
    omega
  · have hex : ∀ k, k ≤ pa.length → ∀ j, j < k → ∃ f p, fa[j]? = some f ∧ pa[j]? = some p := by
      intro k hk j hj
      exact ⟨fa[j], pa[j], List.getElem?_eq_getElem (by omega), List.getElem?_eq_getElem (by omega)⟩
    rcases hcases with ⟨_, _, h⟩ | ⟨_, k, _, hk, _, _, h⟩ | ⟨_, k, _, hk, _, _, h⟩
    · exact ⟨pa.length, le_refl _, by rw [h]; exact pairStates_log d c hc _ _ _ _ _ (hex _ (le_refl _))⟩
    · exact ⟨k + 1, hk, by rw [h]; exact pairStates_log d c hc _ _ _ _ _ (hex _ hk)⟩
    · exact ⟨k, le_of_lt hk, by rw [h]; exact pairStates_log d c hc _ _ _ _ _ (hex _ (le_of_lt hk))⟩
  · simp only [DbClient.UpdateMany, hc]
    exact UpdateMany_loop_take d collName fa pa.length pa 0 s (by simp)

/-! ### Fields and filters -/

theorem getField_setField (d : Doc) (k k' : String) (v : Value) :
    getField (setField d k v) k' = if k = k' then some v else getField d k' := by
  induction d with
  | nil => simp [setField, getField]
  | cons x xs ih =>
    obtain ⟨a, b⟩ := x
    unfold setField
    by_cases ha : a = k
    · subst ha
      by_cases hk : a = k' <;> simp [getField, hk]
    · by_cases hk : k = k'
      · subst hk; simp [ha, getField, ih]
      · simp only [ha, if_false, getField, ih, hk]

theorem setField_of_getField (d : Doc) (k : String) (v : Value)
    (h : getField d k = some v) : setField d k v = d := by
  induction d with
  | nil => simp [getField] at h
  | cons x xs ih =>
    obtain ⟨a, b⟩ := x
    unfold setField
    by_cases ha : a = k
    · subst ha; simp [getField] at h; simp [h]
    · simp only [getField, ha, if_false] at h
      simp [ha, ih h]

theorem splitPath_asIpv4Addr : splitPath "asIpv4Addr" = ["asIpv4Addr"] := by decide
theorem splitPath_ueIpv4Addr : splitPath "ueIpv4Addr" = ["ueIpv4Addr"] := by decide
theorem splitPath_scsAsId : splitPath "scsAsId" = ["scsAsId"] := by decide
theorem splitPath_sessionId : splitPath "sessionId" = ["sessionId"] := by decide

theorem matches_provFilter (a : String) (x : Doc) :
    matchesFilter (provFilter a) x = decide (getField x "asIpv4Addr" = some (.str a)) := by
  simp [matchesFilter, provFilter, splitPath_asIpv4Addr, getPath]

theorem matches_flowFilter (u a : String) (x : Doc) :
    matchesFilter (flowFilter u a) x
      = (decide (getField x "ueIpv4Addr" = some (.str u))
        && decide (getField x "scsAsId" = some (.str a))) := by
  simp [matchesFilter, flowFilter, splitPath_ueIpv4Addr, splitPath_scsAsId, getPath]

theorem matches_sessionFilter (i : String) (x : Doc) :
    matchesFilter (sessionFilter i) x = decide (getField x "sessionId" = some (.str i)) := by
  simp [matchesFilter, sessionFilter, splitPath_sessionId, getPath]

theorem matches_sessionPutFilter (u i : String) (x : Doc) :
    matchesFilter (sessionPutFilter u i) x
      = (decide (getField x "ueIpv4Addr" = some (.str u))
        && decide (getField x "sessionId" = some (.str i))) := by
  simp [matchesFilter, sessionPutFilter, splitPath_ueIpv4Addr, splitPath_sessionId, getPath]

/-! ### First match, replacement, removal -/

theorem find_replaceFirst (p q : Doc → Bool) (new : Doc) (l : List Doc)
    (hex : ∃ x, x ∈ l ∧ p x = true) (hqp : ∀ x, x ∈ l → q x = true → p x = true)
    (hnew : q new = true) : (replaceFirst p new l).find? q = some new := by
  induction l with
  | nil => obtain ⟨x, hx, _⟩ := hex; cases hx
  | cons y ys ih =>
    unfold replaceFirst
    by_cases hy : p y = true
    · simp [hy, hnew]
    · have hqy : q y = false := by
        cases hq : q y with
        | false => rfl
        | true => exact absurd (hqp y (List.mem_cons_self _ _) hq) hy
      have hy' : p y = false := by simpa using hy
      simp only [hy', Bool.false_eq_true, if_false, List.find?_cons, hqy]
      apply ih
      · obtain ⟨x, hx, hpx⟩ := hex
        rcases List.mem_cons.mp hx with h | h
        · subst h; exact absurd hpx hy
        · exact ⟨x, h, hpx⟩
      · intro x hx; exact hqp x (List.mem_cons_of_mem _ hx)

theorem find_append_new (q : Doc → Bool) (new : Doc) (l : List Doc)
    (hnone : ∀ x, x ∈ l → q x = false) (hnew : q new = true) :
    (l ++ [new]).find? q = some new := by
  induction l with
  | nil => simp [hnew]
  | cons y ys ih =>
    have hy := hnone y (List.mem_cons_self _ _)
    simp only [List.cons_append, List.find?_cons, hy]
    exact ih (fun x hx => hnone x (List.mem_cons_of_mem _ hx))

theorem replaceFirst_self (p : Doc → Bool) (y : Doc) (l : List Doc)
    (h : l.find? p = some y) : replaceFirst p y l = l := by
  induction l with
  | nil => rfl
  | cons x xs ih =>
    unfold replaceFirst
    by_cases hx : p x = true
    · simp only [List.find?_cons, hx, Option.some.injEq] at h
      subst h
      simp [hx]
    · simp only [List.find?_cons] at h
      have hx' : p x = false := by simpa using hx
      rw [hx'] at h
      simp [hx', ih h]

theorem find_none_of_forall (p : Doc → Bool) (l : List Doc)
    (h : l.find? p = none) : ∀ x, x ∈ l → p x = false := by
  intro x hx
  have := List.find?_eq_none.mp h x hx
  simpa using this

theorem find_some_mem (p : Doc → Bool) (l : List Doc) (y : Doc)
    (h : l.find? p = some y) : y ∈ l ∧ p y = true :=
  ⟨List.mem_of_find?_eq_some h, List.find?_some h⟩

/-! ### Driver calls on a ready store -/

theorem call_ready (c : MongoClient) (s : Server) (r : Request) (hl : c.live = true)
    (hf : s.faults = []) : mongo.call c s r = (none, s.logged r) := by
  simp [mongo.call, hl, Server.receive, hf, Server.logged]

@[simp] theorem logged_data (s : Server) (r : Request) : (s.logged r).data = s.data := rfl
@[simp] theorem logged_faults (s : Server) (r : Request) : (s.logged r).faults = s.faults := rfl
@[simp] theorem logged_log (s : Server) (r : Request) : (s.logged r).log = s.log ++ [r] := rfl
@[simp] theorem setColl_faults (s : Server) (db coll : String) (l : List Doc) :
    (s.setColl db coll l).faults = s.faults := rfl
@[simp] theorem setColl_log (s : Server) (db coll : String) (l : List Doc) :
    (s.setColl db coll l).log = s.log := rfl
@[simp] theorem setColl_data_same (s : Server) (db coll : String) (l : List Doc) :
    (s.setColl db coll l).data db coll = l := by
  simp [Server.setColl]

theorem setColl_data_other (s : Server) (db coll db' coll' : String) (l : List Doc)
    (h : ¬ (db' = db ∧ coll' = coll)) : (s.setColl db coll l).data db' coll' = s.data db' coll' := by
  simp only [Server.setColl]
  rw [if_neg h]

theorem GetOne_ready (d : DbClient) (c : MongoClient) (hc : d.client = some c)
    (hl : c.live = true) (s : Server) (hf : s.faults = []) (collName : String) (filter : Doc) :
    d.GetOne s collName filter
      = match (s.data d.DbName collName).find? (matchesFilter filter) with
        | some x => ((some x, none), s.logged (.findOne d.DbName collName filter))
        | none =>
          ((none, some mongo.ErrNoDocuments), s.logged (.findOne d.DbName collName filter)) := by
  simp only [DbClient.GetOne, hc, mongo.FindOne, call_ready c s _ hl hf, logged_data]
  cases (s.data d.DbName collName).find? (matchesFilter filter) <;> rfl

theorem UpdateInsertOne_ready (d : DbClient) (c : MongoClient) (hc : d.client = some c)
    (hl : c.live = true) (s : Server) (hf : s.faults = []) (collName : String)
    (filter putData : Doc) :
    d.UpdateInsertOne s collName filter putData
      = match (s.data d.DbName collName).find? (matchesFilter filter) with
        | some old =>
          ((1, none),
            (s.logged (.updateOne d.DbName collName filter [("$set", .doc putData)] true)).setColl
              d.DbName collName
              (replaceFirst (matchesFilter filter) (setFields putData old)
                (s.data d.DbName collName)))
        | none =>
          ((0, none),
            (s.logged (.updateOne d.DbName collName filter [("$set", .doc putData)] true)).setColl
              d.DbName collName (s.data d.DbName collName ++ [setFields putData filter])) := by
  simp only [DbClient.UpdateInsertOne, hc, mongo.UpdateOne, call_ready c s _ hl hf, logged_data,
    applyUpdate_set]
  cases (s.data d.DbName collName).find? (matchesFilter filter) <;> rfl

theorem GetIncrementedOne_ready (d : DbClient) (c : MongoClient) (hc : d.client = some c)
    (hl : c.live = true) (s : Server) (hf : s.faults = []) (collName : String)
    (filter toUpdate : Doc) :
    d.GetIncrementedOne s collName filter toUpdate
      = match (s.data d.DbName collName).find? (matchesFilter filter) with
        | some old =>
          match applyUpdate toUpdate old with
          | .ok new =>
            ((some new, none),
              (s.logged (.findOneAndUpdate d.DbName collName filter toUpdate true true)).setColl
                d.DbName collName
                (replaceFirst (matchesFilter filter) new (s.data d.DbName collName)))
          | .error e =>
            ((none, some e),
              s.logged (.findOneAndUpdate d.DbName collName filter toUpdate true true))
        | none =>
          match applyUpdate toUpdate filter with
          | .ok new =>
            ((some new, none),
              (s.logged (.findOneAndUpdate d.DbName collName filter toUpdate true true)).setColl
                d.DbName collName (s.data d.DbName collName ++ [new]))
          | .error e =>
            ((none, some e),
              s.logged (.findOneAndUpdate d.DbName collName filter toUpdate true true)) := by
  simp only [DbClient.GetIncrementedOne, hc, mongo.FindOneAndUpdate, call_ready c s _ hl hf,
    logged_data]
  cases (s.data d.DbName collName).find? (matchesFilter filter) with
  | none =>
    simp only [if_true]
    cases applyUpdate toUpdate filter <;> rfl
  | some old =>
    simp only
    cases applyUpdate toUpdate old <;> rfl

theorem DeleteOne_ready (d : DbClient) (c : MongoClient) (hc : d.client = some c)
    (hl : c.live = true) (s : Server) (hf : s.faults = []) (collName : String) (filter : Doc) :
    d.DeleteOne s collName filter
      = if (s.data d.DbName collName).any (matchesFilter filter) then
          ((1, none),
            (s.logged (.deleteOne d.DbName collName filter)).setColl d.DbName collName
              (removeFirst (matchesFilter filter) (s.data d.DbName collName)))
        else ((0, none), s.logged (.deleteOne d.DbName collName filter)) := by
  simp only [DbClient.DeleteOne, hc, mongo.DeleteOne, call_ready c s _ hl hf, logged_data]
  by_cases h : (s.data d.DbName collName).any (matchesFilter filter) = true
  · simp only [h, if_true]
  · have h' : (s.data d.DbName collName).any (matchesFilter filter) = false := by simpa using h
    simp only [h', Bool.false_eq_true, if_false]

/-! ### The flow counter -/

theorem replaceFirst_append_last (p : Doc → Bool) (new y : Doc) (base : List Doc)
    (hbase : ∀ x, x ∈ base → p x = false) (hy : p y = true) :
    replaceFirst p new (base ++ [y]) = base ++ [new] := by
  induction base with
  | nil => simp [replaceFirst, hy]
  | cons x xs ih =>
    have hx := hbase x (List.mem_cons_self _ _)
    have h := ih (fun z hz => hbase z (List.mem_cons_of_mem _ hz))
    rw [List.cons_append, List.cons_append]
    unfold replaceFirst
    rw [hx, h]
    simp

theorem matches_flowDoc (u a : String) (n : Int) :
    matchesFilter (flowFilter u a) (flowDoc u a n) = true := by
  simp [matches_flowFilter, flowDoc, getField]

theorem decode_flowDoc (u a : String) (n : Int) :
    decodeServiceUeFlow (flowDoc u a n)
      = (some { UeIpv4Addr := u, ScsAsId := a, FlowCounter := n }, none) := by
  simp [decodeServiceUeFlow, decodeMapStructure, MapStruct.decode, decodeString, decodeInt,
    getField, flowDoc]

theorem increment_filter : applyUpdate flowIncrement (flowFilter u a) = .ok (flowDoc u a 1) := by
  simp [applyUpdate, flowIncrement, applyOperators, applyOperator, incFields, incField,
    flowFilter, getField, setField, flowDoc]

theorem increment_flowDoc (u a : String) (n : Int) :
    applyUpdate flowIncrement (flowDoc u a n) = .ok (flowDoc u a (n + 1)) := by
  simp [applyUpdate, flowIncrement, applyOperators, applyOperator, incFields, incField,
    getField, setField, flowDoc]

theorem Increment_fresh (d : DbApi) (s : Server) (hr : Ready d s) (u a : String)
    (hfresh : ∀ x, x ∈ s.data d.cli.DbName COLLECTION_CAMARA_QOD_SERVICE_UE_FLOW →
      matchesFilter (flowFilter u a) x = false) :
    d.GetCamaraQoDServiceIncrementUeFlow s u a
      = ((some { UeIpv4Addr := u, ScsAsId := a, FlowCounter := 1 }, none),
          (s.logged (.findOneAndUpdate d.cli.DbName COLLECTION_CAMARA_QOD_SERVICE_UE_FLOW
            (flowFilter u a) flowIncrement true true)).setColl d.cli.DbName
            COLLECTION_CAMARA_QOD_SERVICE_UE_FLOW
            (s.data d.cli.DbName COLLECTION_CAMARA_QOD_SERVICE_UE_FLOW ++ [flowDoc u a 1])) := by
  obtain ⟨⟨c, hc, hl⟩, hf⟩ := hr
  have hnone : (s.data d.cli.DbName COLLECTION_CAMARA_QOD_SERVICE_UE_FLOW).find?
      (matchesFilter (flowFilter u a)) = none := by
    apply List.find?_eq_none.mpr
    intro x hx; simp [hfresh x hx]
  have h := GetIncrementedOne_ready d.cli c hc hl s hf COLLECTION_CAMARA_QOD_SERVICE_UE_FLOW
    (flowFilter u a) flowIncrement
  rw [hnone] at h
  simp only [increment_filter] at h
  unfold DbApi.GetCamaraQoDServiceIncrementUeFlow
  simp only [flowFilter, flowIncrement] at h ⊢
  rw [h]
  simp only [Option.getD_some]
  have hd := decode_flowDoc u a 1
  simp only [flowDoc] at hd ⊢
  rw [hd]

theorem Increment_next (d : DbApi) (s : Server) (hr : Ready d s) (u a : String) (n : Int)
    (base : List Doc)
    (hdata : s.data d.cli.DbName COLLECTION_CAMARA_QOD_SERVICE_UE_FLOW = base ++ [flowDoc u a n])
    (hbase : ∀ x, x ∈ base → matchesFilter (flowFilter u a) x = false) :
    d.GetCamaraQoDServiceIncrementUeFlow s u a
      = ((some { UeIpv4Addr := u, ScsAsId := a, FlowCounter := n + 1 }, none),
          (s.logged (.findOneAndUpdate d.cli.DbName COLLECTION_CAMARA_QOD_SERVICE_UE_FLOW
            (flowFilter u a) flowIncrement true true)).setColl d.cli.DbName
            COLLECTION_CAMARA_QOD_SERVICE_UE_FLOW (base ++ [flowDoc u a (n + 1)])) := by
  obtain ⟨⟨c, hc, hl⟩, hf⟩ := hr
  have hfind : (s.data d.cli.DbName COLLECTION_CAMARA_QOD_SERVICE_UE_FLOW).find?
      (matchesFilter (flowFilter u a)) = some (flowDoc u a n) := by
    rw [hdata]; exact find_append_new _ _ _ hbase (matches_flowDoc u a n)
  have h := GetIncrementedOne_ready d.cli c hc hl s hf COLLECTION_CAMARA_QOD_SERVICE_UE_FLOW
    (flowFilter u a) flowIncrement
  rw [hfind] at h
  simp only [increment_flowDoc] at h
  rw [hdata, replaceFirst_append_last _ _ _ _ hbase (matches_flowDoc u a n)] at h
  unfold DbApi.GetCamaraQoDServiceIncrementUeFlow
  simp only [flowFilter, flowIncrement] at h ⊢
  rw [h]
  simp only [Option.getD_some]
  have hd := decode_flowDoc u a (n + 1)
  simp only [flowDoc] at hd ⊢
  rw [hd]

theorem run_snoc (w : World) (ops : List Op) (op : Op) :
    run w (ops ++ [op]) = step (run w ops) op := by
  simp [run, List.foldl_append]

theorem run_increments (d : DbApi) (s : Server) (hr : Ready d s) (u a : String)
    (hfresh : ∀ x, x ∈ s.data d.cli.DbName COLLECTION_CAMARA_QOD_SERVICE_UE_FLOW →
      matchesFilter (flowFilter u a) x = false) (n : Nat) :
    (run ⟨d, s⟩ (List.replicate n (.IncrementFlow u a))).api = d
    ∧ Ready d (run ⟨d, s⟩ (List.replicate n (.IncrementFlow u a))).srv
    ∧ (n = 0 → (run ⟨d, s⟩ (List.replicate n (.IncrementFlow u a))).srv = s)
    ∧ (0 < n → (run ⟨d, s⟩ (List.replicate n (.IncrementFlow u a))).srv.data d.cli.DbName
          COLLECTION_CAMARA_QOD_SERVICE_UE_FLOW
        = s.data d.cli.DbName COLLECTION_CAMARA_QOD_SERVICE_UE_FLOW ++ [flowDoc u a n]) := by
  induction n with
  | zero => exact ⟨rfl, hr, fun _ => rfl, fun h => absurd h (Nat.lt_irrefl 0)⟩
  | succ n ih =>
    obtain ⟨h1, h2, h3, h4⟩ := ih
    rw [List.replicate_succ', run_snoc]
    generalize run ⟨d, s⟩ (List.replicate n (.IncrementFlow u a)) = w at h1 h2 h3 h4
    obtain ⟨api, srv⟩ := w
    simp only at h1 h2 h3 h4
    subst h1
    simp only [step]
    refine ⟨trivial, ?_, fun h => absurd h (Nat.succ_ne_zero n), fun _ => ?_⟩
    · rcases Nat.eq_zero_or_pos n with hn | hn
      · have := h3 hn; subst this
        rw [Increment_fresh api srv h2 u a hfresh]
        exact ⟨h2.1, h2.2⟩
      · rw [Increment_next api srv h2 u a n _ (h4 hn) hfresh]
        exact ⟨h2.1, h2.2⟩
    · rcases Nat.eq_zero_or_pos n with hn | hn
      · have := h3 hn; subst this
        rw [Increment_fresh api srv h2 u a hfresh]
        subst hn
        simp
      · rw [Increment_next api srv h2 u a n _ (h4 hn) hfresh]
        simp

theorem GetFlow_last (d : DbApi) (s : Server) (hr : Ready d s) (u a : String) (n : Int)
    (base : List Doc)
    (hdata : s.data d.cli.DbName COLLECTION_CAMARA_QOD_SERVICE_UE_FLOW = base ++ [flowDoc u a n])
    (hbase : ∀ x, x ∈ base → matchesFilter (flowFilter u a) x = false) :
    (d.GetCamaraQoDServiceUeFlow s u a).1
      = (some { UeIpv4Addr := u, ScsAsId := a, FlowCounter := n }, none) := by
  obtain ⟨⟨c, hc, hl⟩, hf⟩ := hr
  have hfind : (s.data d.cli.DbName COLLECTION_CAMARA_QOD_SERVICE_UE_FLOW).find?
      (matchesFilter (flowFilter u a)) = some (flowDoc u a n) := by
    rw [hdata]; exact find_append_new _ _ _ hbase (matches_flowDoc u a n)
  have h := GetOne_ready d.cli c hc hl s hf COLLECTION_CAMARA_QOD_SERVICE_UE_FLOW (flowFilter u a)
  rw [hfind] at h
  unfold DbApi.GetCamaraQoDServiceUeFlow
  simp only [flowFilter] at h ⊢
  rw [h]
  simp only [Option.getD_some]
  have hd := decode_flowDoc u a n
  simp only [flowDoc] at hd ⊢
  rw [hd]

/-- C5: `GetCamaraQoDServiceIncrementUeFlow(ue, scsAsId)` leaves the server as the call of
`GetIncrementedOne` on the flow collection with the filter `ueIpv4Addr = ue, scsAsId = scsAsId`
and the update `$inc FlowCounter by 1` leaves it, the request received being a
find-one-and-update with upsert and return-after.  On a connected facade and a store that serves
every request, starting from a state with no flow document for the key, the call that follows
`n` earlier calls returns the record with counter `n + 1` and no error (1 on the first call, 2
on the second), and that record is the stored, post-update one: a read of the key right after
returns the same. -/
theorem increment_flow_returns_call_number (d : DbApi) (s : Server) (hr : Ready d s)
    (ue scsAsId : String)
    (hfresh : ∀ x, x ∈ s.data d.cli.DbName COLLECTION_CAMARA_QOD_SERVICE_UE_FLOW →
      matchesFilter (flowFilter ue scsAsId) x = false) :
    (d.GetCamaraQoDServiceIncrementUeFlow s ue scsAsId).2
        = (d.cli.GetIncrementedOne s "camara.qod.service.ueflow"
            [("ueIpv4Addr", .str ue), ("scsAsId", .str scsAsId)]
            [("$inc", .doc [("FlowCounter", .int 1)])]).2
    ∧ (d.GetCamaraQoDServiceIncrementUeFlow s ue scsAsId).2.log
        = s.log ++ [.findOneAndUpdate d.cli.DbName "camara.qod.service.ueflow"
            [("ueIpv4Addr", .str ue), ("scsAsId", .str scsAsId)]
            [("$inc", .doc [("FlowCounter", .int 1)])] true true]
    ∧ ∀ n : Nat,
        ((run ⟨d, s⟩ (List.replicate n (.IncrementFlow ue scsAsId))).api.GetCamaraQoDServiceIncrementUeFlow
            (run ⟨d, s⟩ (List.replicate n (.IncrementFlow ue scsAsId))).srv ue scsAsId).1
          = (some { UeIpv4Addr := ue, ScsAsId := scsAsId, FlowCounter := (n : Int) + 1 }, none)
        ∧ (d.GetCamaraQoDServiceUeFlow
            (run ⟨d, s⟩ (List.replicate (n + 1) (.IncrementFlow ue scsAsId))).srv ue scsAsId).1
          = (some { UeIpv4Addr := ue, ScsAsId := scsAsId, FlowCounter := (n : Int) + 1 }, none) := by
  refine ⟨?_, ?_, ?_⟩
  · unfold DbApi.GetCamaraQoDServiceIncrementUeFlow
    simp only [COLLECTION_CAMARA_QOD_SERVICE_UE_FLOW]
    rcases d.cli.GetIncrementedOne s "camara.qod.service.ueflow"
      [("ueIpv4Addr", .str ue), ("scsAsId", .str scsAsId)]
      [("$inc", .doc [("FlowCounter", .int 1)])] with ⟨⟨r, e⟩, s1⟩
    cases e with
    | some err => rfl
    | none =>
      simp only
      rcases decodeServiceUeFlow (r.getD []) with ⟨r2, e2⟩
      cases e2 <;> rfl
  · rw [Increment_fresh d s hr ue scsAsId hfresh]
    simp [flowFilter, flowIncrement, COLLECTION_CAMARA_QOD_SERVICE_UE_FLOW]
  · intro n
    obtain ⟨h1, h2, h3, h4⟩ := run_increments d s hr ue scsAsId hfresh n
    obtain ⟨_, g2, _, g4⟩ := run_increments d s hr ue scsAsId hfresh (n + 1)
    refine ⟨?_, ?_⟩
    · rw [h1]
      rcases Nat.eq_zero_or_pos n with hn | hn
      · rw [h3 hn, Increment_fresh d s hr ue scsAsId hfresh]; subst hn; simp
      · rw [Increment_next d _ h2 ue scsAsId n _ (h4 hn) hfresh]
    · have := GetFlow_last d _ g2 ue scsAsId ((n + 1 : Nat) : Int) _ (g4 (Nat.succ_pos n)) hfresh
      simpa using this

theorem sample_ready : Ready sampleApi sampleServer := ⟨⟨{ live := true }, rfl, rfl⟩, rfl⟩

/-- C5 at the sample store: the call after one earlier call returns counter 2. -/
theorem increment_flow_returns_call_number_witness :
    Ready sampleApi sampleServer
    ∧ ((run ⟨sampleApi, sampleServer⟩
          (List.replicate 1 (.IncrementFlow "10.0.0.5" "app1"))).api.GetCamaraQoDServiceIncrementUeFlow
        (run ⟨sampleApi, sampleServer⟩
          (List.replicate 1 (.IncrementFlow "10.0.0.5" "app1"))).srv "10.0.0.5" "app1").1
      = (some { UeIpv4Addr := "10.0.0.5", ScsAsId := "app1", FlowCounter := ((1 : Nat) : Int) + 1 },
          none) :=
  ⟨sample_ready,
    ((increment_flow_returns_call_number sampleApi sampleServer sample_ready "10.0.0.5" "app1"
      (fun x hx => by simp [sampleServer, sampleApi, COLLECTION_CAMARA_QOD_SERVICE_UE_FLOW] at hx)).2.2
      1).1⟩

/-- C8 at the sample store, with a second pair that matches nothing. -/
theorem UpdateMany_aborts_at_first_failure_witness :
    sampleApi.cli.client = some { live := true }
    ∧ ((sampleApi.cli.UpdateMany sampleServer "c" [[("k", .str "a")], [("k", .str "b")]]
          [[("v", .int 1)], [("v", .int 2)]]).2.data "qod" "c").length
        = (sampleServer.data "qod" "c").length :=
  ⟨rfl, (UpdateMany_aborts_at_first_failure sampleApi.cli { live := true } rfl sampleServer "c"
    [[("k", .str "a")], [("k", .str "b")]] [[("v", .int 1)], [("v", .int 2)]]).2.2 "qod" "c"⟩

/-- C10 at the sample store, with one surplus filter. -/
theorem UpdateMany_index_in_range_witness :
    sampleApi.cli.client = some { live := true }
    ∧ [[("v", Value.int 1)]].length ≤ [[("k", Value.str "a")], [("k", Value.str "b")]].length
    ∧ sampleApi.cli.UpdateMany sampleServer "c"
        ([[("k", .str "a")], [("k", .str "b")]].take [[("v", Value.int 1)]].length)
        [[("v", .int 1)]]
      = sampleApi.cli.UpdateMany sampleServer "c" [[("k", .str "a")], [("k", .str "b")]]
        [[("v", .int 1)]] :=
  ⟨rfl, by decide,
    ((UpdateMany_index_in_range sampleApi.cli { live := true } rfl sampleServer "c"
      [[("k", .str "a")], [("k", .str "b")]] [[("v", .int 1)]]).1 (by decide)).2.2⟩

/-! ### Put followed by Get -/

theorem toBsonM_ok {R : Type} [JsonStruct R] (data : R) :
    toBsonM data = (some (JsonStruct.json data), none) := rfl

theorem UpdateInsertOne_ok_live (d : DbClient) (s : Server) (collName : String)
    (filter putData : Doc) (h : (d.UpdateInsertOne s collName filter putData).1.2 = none) :
    ∃ c, d.client = some c ∧ c.live = true := by
  unfold DbClient.UpdateInsertOne at h
  cases hc : d.client with
  | none => simp [hc] at h
  | some c =>
    refine ⟨c, rfl, ?_⟩
    by_contra hl
    have hl' : c.live = false := by simpa using hl
    simp [hc, mongo.UpdateOne, mongo.call, hl'] at h

/-- The documents of a collection after an upsert of `putData` under `filter`. -/
theorem UpdateInsertOne_data (d : DbClient) (c : MongoClient) (hc : d.client = some c)
    (hl : c.live = true) (s : Server) (hf : s.faults = []) (collName : String)
    (filter putData : Doc) :
    (d.UpdateInsertOne s collName filter putData).2.faults = []
    ∧ (d.UpdateInsertOne s collName filter putData).1.2 = none
    ∧ ((∃ old, (s.data d.DbName collName).find? (matchesFilter filter) = some old
          ∧ (d.UpdateInsertOne s collName filter putData).1.1 = 1
          ∧ (d.UpdateInsertOne s collName filter putData).2.data d.DbName collName
            = replaceFirst (matchesFilter filter) (setFields putData old)
                (s.data d.DbName collName))
        ∨ ((s.data d.DbName collName).find? (matchesFilter filter) = none
          ∧ (d.UpdateInsertOne s collName filter putData).1.1 = 0
          ∧ (d.UpdateInsertOne s collName filter putData).2.data d.DbName collName
            = s.data d.DbName collName ++ [setFields putData filter])) := by
  rw [UpdateInsertOne_ready d c hc hl s hf]
  cases hfind : (s.data d.DbName collName).find? (matchesFilter filter) with
  | none => simp [hf]
  | some old => simp [hf]

theorem upsert_then_find (d : DbClient) (c : MongoClient) (hc : d.client = some c)
    (hl : c.live = true) (s : Server) (hf : s.faults = []) (collName : String)
    (filter putData getFilter : Doc)
    (hqp : ∀ x, x ∈ s.data d.DbName collName → matchesFilter getFilter x = true →
      matchesFilter filter x = true)
    (hq : ∀ x, matchesFilter getFilter (setFields putData x) = true) :
    ∃ x0, ((d.UpdateInsertOne s collName filter putData).2.data d.DbName collName).find?
      (matchesFilter getFilter) = some (setFields putData x0) := by
  obtain ⟨_, _, h | h⟩ := UpdateInsertOne_data d c hc hl s hf collName filter putData
  · obtain ⟨old, hfind, _, hdata⟩ := h
    refine ⟨old, ?_⟩
    rw [hdata]
    obtain ⟨hmem, hp⟩ := find_some_mem _ _ _ hfind
    exact find_replaceFirst _ _ _ _ ⟨old, hmem, hp⟩ hqp (hq old)
  · obtain ⟨hfind, _, hdata⟩ := h
    refine ⟨filter, ?_⟩
    rw [hdata]
    apply find_append_new _ _ _ _ (hq filter)
    intro x hx
    have hpx := find_none_of_forall _ _ hfind x hx
    cases hqx : matchesFilter getFilter x with
    | false => rfl
    | true => rw [hqp x hx hqx] at hpx; cases hpx

theorem decode_prov_set (r : ProvQoDAppServerData) (x : Doc) :
    decodeProveAppServerData (setFields (JsonStruct.json r) x) = (some r, none) := by
  simp [decodeProveAppServerData, decodeMapStructure, MapStruct.decode, decodeString, setFields,
    JsonStruct.json, getField_setField]

theorem decode_flow_set (r : ServiceQoDUeFlow) (x : Doc) :
    decodeServiceUeFlow (setFields (JsonStruct.json r) x) = (some r, none) := by
  simp [decodeServiceUeFlow, decodeMapStructure, MapStruct.decode, decodeString, decodeInt,
    setFields, JsonStruct.json, getField_setField]

theorem decode_session_set (r : ServiceQoDUeSession) (x : Doc) :
    decodeServiceUeSession (setFields (JsonStruct.json r) x) = (some r, none) := by
  simp [decodeServiceUeSession, decodeMapStructure, MapStruct.decode, decodeString,
    decodeSessionReq, setFields, JsonStruct.json, getField_setField, getField]

theorem matches_prov_set (r : ProvQoDAppServerData) (x : Doc) :
    matchesFilter (provFilter r.AsIpv4Addr) (setFields (JsonStruct.json r) x) = true := by
  simp [matches_provFilter, setFields, JsonStruct.json, getField_setField]

theorem matches_flow_set (r : ServiceQoDUeFlow) (x : Doc) :
    matchesFilter (flowFilter r.UeIpv4Addr r.ScsAsId) (setFields (JsonStruct.json r) x)
      = true := by
  simp [matches_flowFilter, setFields, JsonStruct.json, getField_setField]

theorem matches_session_set (r : ServiceQoDUeSession) (x : Doc) :
    matchesFilter (sessionFilter r.SessionId) (setFields (JsonStruct.json r) x) = true := by
  simp [matches_sessionFilter, setFields, JsonStruct.json, getField_setField]

theorem matches_sessionPut_set (r : ServiceQoDUeSession) (x : Doc) :
    matchesFilter (sessionPutFilter r.UeIpv4Addr r.SessionId) (setFields (JsonStruct.json r) x)
      = true := by
  simp [matches_sessionPutFilter, setFields, JsonStruct.json, getField_setField]

theorem PutProv_eq (d : DbApi) (s : Server) (a : String) (data : ProvQoDAppServerData) :
    d.PutCamaraProvQoDAppServerData s a data
      = d.cli.UpdateInsertOne s COLLECTION_CAMARA_QOD_PROV_SESSION (provFilter a)
          (JsonStruct.json data) := rfl

theorem PutFlow_eq (d : DbApi) (s : Server) (u a : String) (data : ServiceQoDUeFlow) :
    d.PutCamaraQoDServiceUeFlow s u a data
      = d.cli.UpdateInsertOne s COLLECTION_CAMARA_QOD_SERVICE_UE_FLOW (flowFilter u a)
          (JsonStruct.json data) := rfl

theorem PutSession_eq (d : DbApi) (s : Server) (u i : String) (data : ServiceQoDUeSession) :
    d.PutCamaraQoDServiceUeSession s u i data
      = d.cli.UpdateInsertOne s COLLECTION_CAMARA_QOD_SERVICE_SESSION (sessionPutFilter u i)
          (JsonStruct.json data) := rfl

theorem GetProv_found (d : DbApi) (c : MongoClient) (hc : d.cli.client = some c)
    (hl : c.live = true) (s : Server) (hf : s.faults = []) (a : String) (x : Doc)
    (r : ProvQoDAppServerData)
    (hfind : (s.data d.cli.DbName COLLECTION_CAMARA_QOD_PROV_SESSION).find?
      (matchesFilter (provFilter a)) = some x)
    (hdec : decodeProveAppServerData x = (some r, none)) :
    (d.GetCamaraProvQoDAppServerData s a).1 = (some r, none) := by
  have h := GetOne_ready d.cli c hc hl s hf COLLECTION_CAMARA_QOD_PROV_SESSION (provFilter a)
  rw [hfind] at h
  unfold DbApi.GetCamaraProvQoDAppServerData
  simp only [provFilter] at h ⊢
  rw [h]
  simp only [Option.getD_some, hdec]

theorem GetFlow_found (d : DbApi) (c : MongoClient) (hc : d.cli.client = some c)
    (hl : c.live = true) (s : Server) (hf : s.faults = []) (u a : String) (x : Doc)
    (r : ServiceQoDUeFlow)
    (hfind : (s.data d.cli.DbName COLLECTION_CAMARA_QOD_SERVICE_UE_FLOW).find?
      (matchesFilter (flowFilter u a)) = some x)
    (hdec : decodeServiceUeFlow x = (some r, none)) :
    (d.GetCamaraQoDServiceUeFlow s u a).1 = (some r, none) := by
  have h := GetOne_ready d.cli c hc hl s hf COLLECTION_CAMARA_QOD_SERVICE_UE_FLOW (flowFilter u a)
  rw [hfind] at h
  unfold DbApi.GetCamaraQoDServiceUeFlow
  simp only [flowFilter] at h ⊢
  rw [h]
  simp only [Option.getD_some, hdec]

theorem GetSession_found (d : DbApi) (c : MongoClient) (hc : d.cli.client = some c)
    (hl : c.live = true) (s : Server) (hf : s.faults = []) (i : String) (x : Doc)
    (r : ServiceQoDUeSession)
    (hfind : (s.data d.cli.DbName COLLECTION_CAMARA_QOD_SERVICE_SESSION).find?
      (matchesFilter (sessionFilter i)) = some x)
    (hdec : decodeServiceUeSession x = (some r, none)) :
    (d.GetCamaraQoDServiceUeSession s i).1 = (some r, none) := by
  have h := GetOne_ready d.cli c hc hl s hf COLLECTION_CAMARA_QOD_SERVICE_SESSION
    (sessionFilter i)
  rw [hfind] at h
  unfold DbApi.GetCamaraQoDServiceUeSession
  simp only [sessionFilter] at h ⊢
  rw [h]
  simp only [Option.getD_some, hdec]

theorem GetSession_not_found (d : DbApi) (c : MongoClient) (hc : d.cli.client = some c)
    (hl : c.live = true) (s : Server) (hf : s.faults = []) (i : String)
    (hfind : (s.data d.cli.DbName COLLECTION_CAMARA_QOD_SERVICE_SESSION).find?
      (matchesFilter (sessionFilter i)) = none) :
    (d.GetCamaraQoDServiceUeSession s i).1
      = (none, some (errCtx (pkgPath ++ ".(*DbApi).GetCamaraQoDServiceUeSession") 97
          (some mongo.ErrNoDocuments))) := by
  have h := GetOne_ready d.cli c hc hl s hf COLLECTION_CAMARA_QOD_SERVICE_SESSION
    (sessionFilter i)
  rw [hfind] at h
  unfold DbApi.GetCamaraQoDServiceUeSession
  simp only [sessionFilter] at h ⊢
  rw [h]

/-- C2 (amended): on a store that serves every request, for a record that carries the key of
the call, a Put that returns without error is followed by a Get-by-key that returns that record
and no error; for provisioned data and flows in every store state, for sessions when no stored
session document carries the session identifier with another UE address than the one passed to
the Put. -/
theorem put_then_get_round_trip (d : DbApi) (s : Server) (hf : s.faults = []) :
    (∀ (asIpv4Addr : String) (data : ProvQoDAppServerData), data.AsIpv4Addr = asIpv4Addr →
      (d.PutCamaraProvQoDAppServerData s asIpv4Addr data).1.2 = none →
      (d.GetCamaraProvQoDAppServerData
        (d.PutCamaraProvQoDAppServerData s asIpv4Addr data).2 asIpv4Addr).1 = (some data, none))
    ∧ (∀ (ueIpv4Addr scsAsId : String) (data : ServiceQoDUeFlow),
      data.UeIpv4Addr = ueIpv4Addr → data.ScsAsId = scsAsId →
      (d.PutCamaraQoDServiceUeFlow s ueIpv4Addr scsAsId data).1.2 = none →
      (d.GetCamaraQoDServiceUeFlow
        (d.PutCamaraQoDServiceUeFlow s ueIpv4Addr scsAsId data).2 ueIpv4Addr scsAsId).1
        = (some data, none))
    ∧ (∀ (ueIpv4Addr sessionId : String) (data : ServiceQoDUeSession),
      data.UeIpv4Addr = ueIpv4Addr → data.SessionId = sessionId →
      (∀ x, x ∈ s.data d.cli.DbName COLLECTION_CAMARA_QOD_SERVICE_SESSION →
        getField x "sessionId" = some (.str sessionId) →
        getField x "ueIpv4Addr" = some (.str ueIpv4Addr)) →
      (d.PutCamaraQoDServiceUeSession s ueIpv4Addr sessionId data).1.2 = none →
      (d.GetCamaraQoDServiceUeSession
        (d.PutCamaraQoDServiceUeSession s ueIpv4Addr sessionId data).2 sessionId).1
        = (some data, none)) := by
  refine ⟨?_, ?_, ?_⟩
  · intro a data hkey hok
    subst hkey
    rw [PutProv_eq] at hok ⊢
    obtain ⟨c, hc, hl⟩ := UpdateInsertOne_ok_live _ _ _ _ _ hok
    obtain ⟨hf', _, _⟩ := UpdateInsertOne_data d.cli c hc hl s hf
      COLLECTION_CAMARA_QOD_PROV_SESSION (provFilter data.AsIpv4Addr) (JsonStruct.json data)
    obtain ⟨x0, hx0⟩ := upsert_then_find d.cli c hc hl s hf COLLECTION_CAMARA_QOD_PROV_SESSION
      (provFilter data.AsIpv4Addr) (JsonStruct.json data) (provFilter data.AsIpv4Addr)
      (fun _ _ h => h) (matches_prov_set data)
    exact GetProv_found d c hc hl _ hf' _ _ data hx0 (decode_prov_set data x0)
  · intro u a data hu ha hok
    subst hu ha
    rw [PutFlow_eq] at hok ⊢
    obtain ⟨c, hc, hl⟩ := UpdateInsertOne_ok_live _ _ _ _ _ hok
    obtain ⟨hf', _, _⟩ := UpdateInsertOne_data d.cli c hc hl s hf
      COLLECTION_CAMARA_QOD_SERVICE_UE_FLOW (flowFilter data.UeIpv4Addr data.ScsAsId)
      (JsonStruct.json data)
    obtain ⟨x0, hx0⟩ := upsert_then_find d.cli c hc hl s hf
      COLLECTION_CAMARA_QOD_SERVICE_UE_FLOW (flowFilter data.UeIpv4Addr data.ScsAsId)
      (JsonStruct.json data) (flowFilter data.UeIpv4Addr data.ScsAsId)
      (fun _ _ h => h) (matches_flow_set data)
    exact GetFlow_found d c hc hl _ hf' _ _ _ data hx0 (decode_flow_set data x0)
  · intro u i data hu hi hstore hok
    subst hu hi
    rw [PutSession_eq] at hok ⊢
    obtain ⟨c, hc, hl⟩ := UpdateInsertOne_ok_live _ _ _ _ _ hok
    obtain ⟨hf', _, _⟩ := UpdateInsertOne_data d.cli c hc hl s hf
      COLLECTION_CAMARA_QOD_SERVICE_SESSION (sessionPutFilter data.UeIpv4Addr data.SessionId)
      (JsonStruct.json data)
    obtain ⟨x0, hx0⟩ := upsert_then_find d.cli c hc hl s hf
      COLLECTION_CAMARA_QOD_SERVICE_SESSION (sessionPutFilter data.UeIpv4Addr data.SessionId)
      (JsonStruct.json data) (sessionFilter data.SessionId)
      (fun x hx h => by
        rw [matches_sessionFilter] at h
        rw [matches_sessionPutFilter]
        have h1 := of_decide_eq_true h
        simp [h1, hstore x hx h1])
      (matches_session_set data)
    exact GetSession_found d c hc hl _ hf' _ _ data hx0 (decode_session_set data x0)

/-- C2 at the sample store, for provisioned data. -/
theorem put_then_get_round_trip_witness :
    sampleServer.faults = []
    ∧ (sampleApi.GetCamaraProvQoDAppServerData
        (sampleApi.PutCamaraProvQoDAppServerData sampleServer "10.0.0.1" sampleProv).2
        "10.0.0.1").1 = (some sampleProv, none) :=
  ⟨rfl, (put_then_get_round_trip sampleApi sampleServer rfl).1 "10.0.0.1" sampleProv rfl
    (by decide)⟩

/-- C2 fails as stated: after `sessionA` was put for UE `10.0.0.1`, putting `sessionB` (same
session identifier, UE `10.0.0.2`, a record that carries the key of its call) returns without
error, and the Get by the session identifier returns `sessionA`, not the record written. -/
theorem put_then_get_session_returns_older_record :
    sessionB.UeIpv4Addr = "10.0.0.2" ∧ sessionB.SessionId = "s1"
    ∧ (worldWithSessionA.api.PutCamaraQoDServiceUeSession worldWithSessionA.srv
        "10.0.0.2" "s1" sessionB).1 = (0, none)
    ∧ (worldWithSessionA.api.GetCamaraQoDServiceUeSession
        (worldWithSessionA.api.PutCamaraQoDServiceUeSession worldWithSessionA.srv
          "10.0.0.2" "s1" sessionB).2 "s1").1 = (some sessionA, none)
    ∧ (worldWithSessionA.api.GetCamaraQoDServiceUeSession
        (worldWithSessionA.api.PutCamaraQoDServiceUeSession worldWithSessionA.srv
          "10.0.0.2" "s1" sessionB).2 "s1").1 ≠ (some sessionB, none) := by
  decide

/-! ### Repeated Put -/

theorem setFields_fixed (fields : Doc) (y : Doc)
    (h : ∀ kv, kv ∈ fields → getField y kv.1 = some kv.2) : setFields fields y = y := by
  induction fields with
  | nil => rfl
  | cons kv rest ih =>
    have h1 := setField_of_getField y kv.1 kv.2 (h kv (List.mem_cons_self _ _))
    simp only [setFields, List.foldl_cons, h1]
    exact ih (fun kv' hkv => h kv' (List.mem_cons_of_mem _ hkv))

theorem setColl_self (s : Server) (db coll : String) :
    (s.setColl db coll (s.data db coll)).data = s.data := by
  funext d c
  simp only [Server.setColl]
  split
  · rename_i h; rw [h.1, h.2]
  · rfl

theorem any_of_find_some (p : Doc → Bool) (l : List Doc) (y : Doc) (h : l.find? p = some y) :
    l.any p = true := by
  obtain ⟨hm, hp⟩ := find_some_mem p l y h
  exact List.any_eq_true.mpr ⟨y, hm, hp⟩

theorem any_of_find_none (p : Doc → Bool) (l : List Doc) (h : l.find? p = none) :
    l.any p = false := by
  cases hany : l.any p with
  | false => rfl
  | true =>
    obtain ⟨y, hm, hp⟩ := List.any_eq_true.mp hany
    rw [find_none_of_forall p l h y hm] at hp; cases hp

theorem upsert_idempotent (d : DbClient) (s : Server) (hf : s.faults = []) (collName : String)
    (filter putData : Doc)
    (hvalid : ∀ x, matchesFilter filter (setFields putData x) = true)
    (hidem : ∀ x, setFields putData (setFields putData x) = setFields putData x)
    (hok : (d.UpdateInsertOne s collName filter putData).1.2 = none) :
    (d.UpdateInsertOne s collName filter putData).1.1
        = (if (s.data d.DbName collName).any (matchesFilter filter) then 1 else 0)
    ∧ ∀ t : Server, t.faults = [] →
        t.data = (d.UpdateInsertOne s collName filter putData).2.data →
        (d.UpdateInsertOne t collName filter putData).1 = (1, none)
        ∧ (d.UpdateInsertOne t collName filter putData).2.data = t.data
        ∧ (d.UpdateInsertOne t collName filter putData).2.faults = [] := by
  obtain ⟨c, hc, hl⟩ := UpdateInsertOne_ok_live _ _ _ _ _ hok
  refine ⟨?_, ?_⟩
  · obtain ⟨_, _, h | h⟩ := UpdateInsertOne_data d c hc hl s hf collName filter putData
    · obtain ⟨old, hfind, hcnt, _⟩ := h
      rw [hcnt, any_of_find_some _ _ _ hfind]; rfl
    · obtain ⟨hfind, hcnt, _⟩ := h
      rw [hcnt, any_of_find_none _ _ hfind]; rfl
  · intro t ht hdata
    obtain ⟨x0, hx0⟩ := upsert_then_find d c hc hl s hf collName filter putData filter
      (fun _ _ h => h) hvalid
    rw [← hdata] at hx0
    have h := UpdateInsertOne_ready d c hc hl t ht collName filter putData
    rw [hx0] at h
    simp only [hidem, replaceFirst_self _ _ _ hx0] at h
    rw [h]
    exact ⟨rfl, setColl_self _ _ _, ht⟩

theorem json_prov_idem (r : ProvQoDAppServerData) (x : Doc) :
    setFields (JsonStruct.json r) (setFields (JsonStruct.json r) x)
      = setFields (JsonStruct.json r) x := by
  apply setFields_fixed
  intro kv hkv
  simp only [JsonStruct.json, List.mem_cons, List.mem_singleton, List.not_mem_nil, or_false] at hkv
  rcases hkv with h | h <;> subst h <;>
    simp [setFields, JsonStruct.json, getField_setField]

theorem json_flow_idem (r : ServiceQoDUeFlow) (x : Doc) :
    setFields (JsonStruct.json r) (setFields (JsonStruct.json r) x)
      = setFields (JsonStruct.json r) x := by
  apply setFields_fixed
  intro kv hkv
  simp only [JsonStruct.json, List.mem_cons, List.mem_singleton, List.not_mem_nil, or_false] at hkv
  rcases hkv with h | h | h <;> subst h <;>
    simp [setFields, JsonStruct.json, getField_setField]

theorem json_session_idem (r : ServiceQoDUeSession) (x : Doc) :
    setFields (JsonStruct.json r) (setFields (JsonStruct.json r) x)
      = setFields (JsonStruct.json r) x := by
  apply setFields_fixed
  intro kv hkv
  simp only [JsonStruct.json, List.mem_cons, List.mem_singleton, List.not_mem_nil, or_false] at hkv
  rcases hkv with h | h | h | h <;> subst h <;>
    simp [setFields, JsonStruct.json, getField_setField]

/-- C6 (amended): over a store that serves every request, for a record that carries the key of
the call, a first Put that succeeds returns the match count of the upsert, 0 when no document
matched the key filter (the record was inserted) and 1 when one did; and in every later state
holding the documents the first Put left, a Put with the same key and data returns 1 with no
error and leaves all stored documents unchanged (so the same holds for the Put after it). -/
theorem put_is_idempotent (d : DbApi) (s : Server) (hf : s.faults = []) :
    (∀ (asIpv4Addr : String) (data : ProvQoDAppServerData), data.AsIpv4Addr = asIpv4Addr →
      (d.PutCamaraProvQoDAppServerData s asIpv4Addr data).1.2 = none →
      (d.PutCamaraProvQoDAppServerData s asIpv4Addr data).1.1
          = (if (s.data d.cli.DbName COLLECTION_CAMARA_QOD_PROV_SESSION).any
              (matchesFilter (provFilter asIpv4Addr)) then 1 else 0)
      ∧ ∀ t : Server, t.faults = [] →
          t.data = (d.PutCamaraProvQoDAppServerData s asIpv4Addr data).2.data →
          (d.PutCamaraProvQoDAppServerData t asIpv4Addr data).1 = (1, none)
          ∧ (d.PutCamaraProvQoDAppServerData t asIpv4Addr data).2.data = t.data
          ∧ (d.PutCamaraProvQoDAppServerData t asIpv4Addr data).2.faults = [])
    ∧ (∀ (ueIpv4Addr scsAsId : String) (data : ServiceQoDUeFlow),
      data.UeIpv4Addr = ueIpv4Addr → data.ScsAsId = scsAsId →
      (d.PutCamaraQoDServiceUeFlow s ueIpv4Addr scsAsId data).1.2 = none →
      (d.PutCamaraQoDServiceUeFlow s ueIpv4Addr scsAsId data).1.1
          = (if (s.data d.cli.DbName COLLECTION_CAMARA_QOD_SERVICE_UE_FLOW).any
              (matchesFilter (flowFilter ueIpv4Addr scsAsId)) then 1 else 0)
      ∧ ∀ t : Server, t.faults = [] →
          t.data = (d.PutCamaraQoDServiceUeFlow s ueIpv4Addr scsAsId data).2.data →
          (d.PutCamaraQoDServiceUeFlow t ueIpv4Addr scsAsId data).1 = (1, none)
          ∧ (d.PutCamaraQoDServiceUeFlow t ueIpv4Addr scsAsId data).2.data = t.data
          ∧ (d.PutCamaraQoDServiceUeFlow t ueIpv4Addr scsAsId data).2.faults = [])
    ∧ (∀ (ueIpv4Addr sessionId : String) (data : ServiceQoDUeSession),
      data.UeIpv4Addr = ueIpv4Addr → data.SessionId = sessionId →
      (d.PutCamaraQoDServiceUeSession s ueIpv4Addr sessionId data).1.2 = none →
      (d.PutCamaraQoDServiceUeSession s ueIpv4Addr sessionId data).1.1
          = (if (s.data d.cli.DbName COLLECTION_CAMARA_QOD_SERVICE_SESSION).any
              (matchesFilter (sessionPutFilter ueIpv4Addr sessionId)) then 1 else 0)
      ∧ ∀ t : Server, t.faults = [] →
          t.data = (d.PutCamaraQoDServiceUeSession s ueIpv4Addr sessionId data).2.data →
          (d.PutCamaraQoDServiceUeSession t ueIpv4Addr sessionId data).1 = (1, none)
          ∧ (d.PutCamaraQoDServiceUeSession t ueIpv4Addr sessionId data).2.data = t.data
          ∧ (d.PutCamaraQoDServiceUeSession t ueIpv4Addr sessionId data).2.faults = []) := by
  refine ⟨?_, ?_, ?_⟩
  · intro a data hkey hok
    subst hkey
    exact upsert_idempotent d.cli s hf COLLECTION_CAMARA_QOD_PROV_SESSION
      (provFilter data.AsIpv4Addr) (JsonStruct.json data) (matches_prov_set data)
      (json_prov_idem data) hok
  · intro u a data hu ha hok
    subst hu ha
    exact upsert_idempotent d.cli s hf COLLECTION_CAMARA_QOD_SERVICE_UE_FLOW
      (flowFilter data.UeIpv4Addr data.ScsAsId) (JsonStruct.json data) (matches_flow_set data)
      (json_flow_idem data) hok
  · intro u i data hu hi hok
    subst hu hi
    exact upsert_idempotent d.cli s hf COLLECTION_CAMARA_QOD_SERVICE_SESSION
      (sessionPutFilter data.UeIpv4Addr data.SessionId) (JsonStruct.json data)
      (matches_sessionPut_set data) (json_session_idem data) hok

/-- C6 at the sample store, for provisioned data. -/
theorem put_is_idempotent_witness :
    sampleServer.faults = []
    ∧ (sampleApi.PutCamaraProvQoDAppServerData sampleServer "10.0.0.1" sampleProv).1.1
        = (if (sampleServer.data sampleApi.cli.DbName COLLECTION_CAMARA_QOD_PROV_SESSION).any
            (matchesFilter (provFilter "10.0.0.1")) then 1 else 0) :=
  ⟨rfl, ((put_is_idempotent sampleApi sampleServer rfl).1 "10.0.0.1" sampleProv rfl
    (by decide)).1⟩

/-- C6 fails as stated: a Put of the record of application server `10.0.0.1` under the key
`10.0.0.9` succeeds, and the same Put repeated returns match count 0 again and adds a second
document. -/
theorem put_with_other_key_is_not_idempotent :
    (connectedWorld.api.PutCamaraProvQoDAppServerData connectedWorld.srv "10.0.0.9"
        sampleProv).1 = (0, none)
    ∧ (connectedWorld.api.PutCamaraProvQoDAppServerData
        (connectedWorld.api.PutCamaraProvQoDAppServerData connectedWorld.srv "10.0.0.9"
          sampleProv).2 "10.0.0.9" sampleProv).1 = (0, none)
    ∧ ((connectedWorld.api.PutCamaraProvQoDAppServerData connectedWorld.srv "10.0.0.9"
        sampleProv).2.data "qod" COLLECTION_CAMARA_QOD_PROV_SESSION).length = 1
    ∧ ((connectedWorld.api.PutCamaraProvQoDAppServerData
        (connectedWorld.api.PutCamaraProvQoDAppServerData connectedWorld.srv "10.0.0.9"
          sampleProv).2 "10.0.0.9" sampleProv).2.data "qod"
          COLLECTION_CAMARA_QOD_PROV_SESSION).length = 2 := by
  decide

/-! ### Deleting a session -/

theorem removeFirst_countP (p : Doc → Bool) (l : List Doc) (h : l.any p = true) :
    (removeFirst p l).countP p + 1 = l.countP p := by
  induction l with
  | nil => simp at h
  | cons x xs ih =>
    unfold removeFirst
    by_cases hx : p x = true
    · simp [hx, List.countP_cons]
    · have hx' : p x = false := by simpa using hx
      have hany : xs.any p = true := by simpa [List.any_cons, hx'] using h
      simp only [hx', Bool.false_eq_true, if_false, List.countP_cons]
      have := ih hany
      omega

theorem find_none_of_countP_zero (p : Doc → Bool) (l : List Doc) (h : l.countP p = 0) :
    l.find? p = none := by
  apply List.find?_eq_none.mpr
  intro x hx
  exact List.countP_eq_zero.mp h x hx

/-- C7 (amended): on a connected facade and a store that serves every request, when
`GetCamaraQoDServiceUeSession(sessionId)` succeeds, `DeleteCamaraQoDServiceUeSession(sessionId)`
returns removed-count 1 and no error; and when exactly one stored session document carries the
session identifier, the Get that follows fails with the store's not-found error, annotated by
`errCtx`. -/
theorem delete_existing_session (d : DbApi) (s : Server) (hr : Ready d s) (sessionId : String)
    (hget : (d.GetCamaraQoDServiceUeSession s sessionId).1.2 = none) :
    (d.DeleteCamaraQoDServiceUeSession s sessionId).1 = (1, none)
    ∧ ((s.data d.cli.DbName COLLECTION_CAMARA_QOD_SERVICE_SESSION).countP
          (matchesFilter (sessionFilter sessionId)) = 1 →
        (d.GetCamaraQoDServiceUeSession (d.DeleteCamaraQoDServiceUeSession s sessionId).2
          sessionId).1
          = (none, some ("[github.com/sfnuser/dbapi.(*DbApi).GetCamaraQoDServiceUeSession:97] "
              ++ "mongo: no documents in result"))) := by
  obtain ⟨⟨c, hc, hl⟩, hf⟩ := hr
  have hany : (s.data d.cli.DbName COLLECTION_CAMARA_QOD_SERVICE_SESSION).any
      (matchesFilter (sessionFilter sessionId)) = true := by
    cases hfind : (s.data d.cli.DbName COLLECTION_CAMARA_QOD_SERVICE_SESSION).find?
        (matchesFilter (sessionFilter sessionId)) with
    | none =>
      rw [GetSession_not_found d c hc hl s hf sessionId hfind] at hget
      cases hget
    | some x => exact any_of_find_some _ _ _ hfind
  have hdel := DeleteOne_ready d.cli c hc hl s hf COLLECTION_CAMARA_QOD_SERVICE_SESSION
    (sessionFilter sessionId)
  rw [hany] at hdel
  simp only [if_true] at hdel
  have hdel' : d.DeleteCamaraQoDServiceUeSession s sessionId = _ := hdel
  rw [hdel']
  refine ⟨rfl, fun hcount => ?_⟩
  have hrm := removeFirst_countP _ _ hany
  rw [hcount] at hrm
  have hnone := find_none_of_countP_zero (matchesFilter (sessionFilter sessionId))
    (removeFirst (matchesFilter (sessionFilter sessionId))
      (s.data d.cli.DbName COLLECTION_CAMARA_QOD_SERVICE_SESSION)) (by omega)
  have := GetSession_not_found d c hc hl
    ((s.logged (.deleteOne d.cli.DbName COLLECTION_CAMARA_QOD_SERVICE_SESSION
      (sessionFilter sessionId))).setColl d.cli.DbName COLLECTION_CAMARA_QOD_SERVICE_SESSION
      (removeFirst (matchesFilter (sessionFilter sessionId))
        (s.data d.cli.DbName COLLECTION_CAMARA_QOD_SERVICE_SESSION)))
    (by simpa using hf) sessionId (by simpa using hnone)
  rw [this]
  rfl

theorem worldWithSessionA_ready : Ready worldWithSessionA.api worldWithSessionA.srv :=
  ⟨⟨{ live := true }, by decide, rfl⟩, by decide⟩

/-- C7 at the state holding the single session `s1`. -/
theorem delete_existing_session_witness :
    Ready worldWithSessionA.api worldWithSessionA.srv
    ∧ (worldWithSessionA.api.GetCamaraQoDServiceUeSession worldWithSessionA.srv "s1").1.2 = none
    ∧ (worldWithSessionA.api.DeleteCamaraQoDServiceUeSession worldWithSessionA.srv "s1").1
        = (1, none) :=
  ⟨worldWithSessionA_ready, by decide,
    (delete_existing_session worldWithSessionA.api worldWithSessionA.srv worldWithSessionA_ready
      "s1" (by decide)).1⟩

/-- C7 fails as stated: with `sessionA` and `sessionB` stored under the same session identifier
(each put under the key of its own UE), the Get succeeds, the Delete returns 1 without error,
and the Get that follows still succeeds, returning `sessionB`. -/
theorem get_after_delete_finds_second_session :
    (worldWithTwoSessions.api.GetCamaraQoDServiceUeSession worldWithTwoSessions.srv "s1").1
        = (some sessionA, none)
    ∧ (worldWithTwoSessions.api.DeleteCamaraQoDServiceUeSession worldWithTwoSessions.srv
        "s1").1 = (1, none)
    ∧ (worldWithTwoSessions.api.GetCamaraQoDServiceUeSession
        (worldWithTwoSessions.api.DeleteCamaraQoDServiceUeSession worldWithTwoSessions.srv
          "s1").2 "s1").1 = (some sessionB, none) := by
  decide

/-! ### Error annotation -/

theorem errCtx_head (fn : String) (lineno : Nat) (err : Option Error) :
    (errCtx fn lineno err).data.head? = some '[' := by
  cases err <;> simp [errCtx, String.data_append]

/-- C9, the code at failing inputs: on a facade that was never connected, the three Put
operations, `PutManyCamaraProvQoDAppServerData` and `DeleteCamaraQoDServiceUeSession` return the
store client's error "no client available" as it is, and on a connected facade they return a
failure of the store as it is; no `errCtx` annotation has such a message (an annotation starts
with a bracket).  The Get on the same facade returns the annotated error. -/
theorem put_and_delete_return_unannotated_errors :
    ((NewDbApi "qod" "mongodb://localhost").PutCamaraProvQoDAppServerData (Server.empty [])
        "10.0.0.1" sampleProv).1 = (0, some "no client available")
    ∧ ((NewDbApi "qod" "mongodb://localhost").PutCamaraQoDServiceUeFlow (Server.empty [])
        "10.0.0.5" "app1" { UeIpv4Addr := "10.0.0.5", ScsAsId := "app1", FlowCounter := 0 }).1
        = (0, some "no client available")
    ∧ ((NewDbApi "qod" "mongodb://localhost").PutCamaraQoDServiceUeSession (Server.empty [])
        "10.0.0.1" "s1" sessionA).1 = (0, some "no client available")
    ∧ ((NewDbApi "qod" "mongodb://localhost").PutManyCamaraProvQoDAppServerData (Server.empty [])
        [sampleProv]).1 = some "no client available"
    ∧ ((NewDbApi "qod" "mongodb://localhost").DeleteCamaraQoDServiceUeSession (Server.empty [])
        "s1").1 = (0, some "no client available")
    ∧ (sampleApi.PutCamaraProvQoDAppServerData (Server.empty [some "connection reset"])
        "10.0.0.1" sampleProv).1 = (0, some "connection reset")
    ∧ (sampleApi.DeleteCamaraQoDServiceUeSession (Server.empty [some "connection reset"])
        "s1").1 = (0, some "connection reset")
    ∧ (∀ (fn : String) (lineno : Nat) (cause : Option Error),
        errCtx fn lineno cause ≠ "no client available"
        ∧ errCtx fn lineno cause ≠ "connection reset")
    ∧ ((NewDbApi "qod" "mongodb://localhost").GetCamaraProvQoDAppServerData (Server.empty [])
        "10.0.0.1").1
        = (none, some ("[github.com/sfnuser/dbapi.(*DbApi).GetCamaraProvQoDAppServerData:43] "
            ++ "no client available")) := by
  refine ⟨by decide, by decide, by decide, by decide, by decide, by decide, by decide, ?_,
    by decide⟩
  intro fn lineno cause
  have h := errCtx_head fn lineno cause
  constructor <;> intro heq <;> rw [heq] at h <;> revert h <;> decide

/-! ### Effect of the store operations on the documents -/

theorem setColl_data_apply (s : Server) (db0 c0 : String) (l : List Doc) (db c : String) :
    (s.setColl db0 c0 l).data db c = if db = db0 ∧ c = c0 then l else s.data db c := rfl

theorem mongo_UpdateOne_effect (cl : MongoClient) (s : Server) (db0 coll : String)
    (filter update : Doc) (upsert : Bool) (db c : String) :
    (mongo.UpdateOne cl s db0 coll filter update upsert).2.data db c = s.data db c
    ∨ (db = db0 ∧ c = coll ∧ UpsertEffect filter update (s.data db c)
        ((mongo.UpdateOne cl s db0 coll filter update upsert).2.data db c)) := by
  have hd := call_data cl s (.updateOne db0 coll filter update upsert)
  unfold mongo.UpdateOne
  generalize mongo.call cl s _ = r at hd ⊢
  obtain ⟨e, s1⟩ := r
  simp only at hd
  cases e with
  | some e => left; simp [hd]
  | none =>
    simp only
    by_cases hdc : db = db0 ∧ c = coll
    · obtain ⟨h1, h2⟩ := hdc
      subst h1 h2
      cases hfind : List.find? (matchesFilter filter) (s1.data db c) with
      | some old =>
        simp only
        cases hup : applyUpdate update old with
        | error e => left; simp [hd]
        | ok new =>
          right
          refine ⟨trivial, trivial, Or.inl ⟨old, new, by rw [← hd]; exact hfind, hup, ?_⟩⟩
          simp [hd]
      | none =>
        simp only
        cases upsert with
        | false => left; simp [hd]
        | true =>
          simp only [if_true]
          cases hup : applyUpdate update filter with
          | error e => left; simp [hd]
          | ok new =>
            right
            refine ⟨trivial, trivial, Or.inr ⟨new, by rw [← hd]; exact hfind, hup, ?_⟩⟩
            simp [hd]
    · left
      cases List.find? (matchesFilter filter) (s1.data db0 coll) with
      | some old =>
        simp only
        cases applyUpdate update old with
        | error e => simp [hd]
        | ok new => simp only [setColl_data_apply, if_neg hdc, hd]
      | none =>
        simp only
        cases upsert with
        | false => simp [hd]
        | true =>
          simp only [if_true]
          cases applyUpdate update filter with
          | error e => simp [hd]
          | ok new => simp only [setColl_data_apply, if_neg hdc, hd]

theorem mongo_FindOneAndUpdate_effect (cl : MongoClient) (s : Server) (db0 coll : String)
    (filter update : Doc) (db c : String) :
    (mongo.FindOneAndUpdate cl s db0 coll filter update true true).2.data db c = s.data db c
    ∨ (db = db0 ∧ c = coll ∧ UpsertEffect filter update (s.data db c)
        ((mongo.FindOneAndUpdate cl s db0 coll filter update true true).2.data db c)) := by
  have hd := call_data cl s (.findOneAndUpdate db0 coll filter update true true)
  unfold mongo.FindOneAndUpdate
  generalize mongo.call cl s _ = r at hd ⊢
  obtain ⟨e, s1⟩ := r
  simp only at hd
  cases e with
  | some e => left; simp [hd]
  | none =>
    simp only
    by_cases hdc : db = db0 ∧ c = coll
    · obtain ⟨h1, h2⟩ := hdc
      subst h1 h2
      cases hfind : List.find? (matchesFilter filter) (s1.data db c) with
      | some old =>
        simp only
        cases hup : applyUpdate update old with
        | error e => left; simp [hd]
        | ok new =>
          right
          refine ⟨trivial, trivial, Or.inl ⟨old, new, by rw [← hd]; exact hfind, hup, ?_⟩⟩
          simp [hd]
      | none =>
        simp only [if_true]
        cases hup : applyUpdate update filter with
        | error e => left; simp [hd]
        | ok new =>
          right
          refine ⟨trivial, trivial, Or.inr ⟨new, by rw [← hd]; exact hfind, hup, ?_⟩⟩
          simp [hd]
    · left
      cases List.find? (matchesFilter filter) (s1.data db0 coll) with
      | some old =>
        simp only
        cases applyUpdate update old with
        | error e => simp [hd]
        | ok new => simp only [setColl_data_apply, if_neg hdc, hd]
      | none =>
        simp only [if_true]
        cases applyUpdate update filter with
        | error e => simp [hd]
        | ok new => simp only [setColl_data_apply, if_neg hdc, hd]

theorem mongo_FindOne_data (cl : MongoClient) (s : Server) (db0 coll : String) (filter : Doc) :
    (mongo.FindOne cl s db0 coll filter).2.data = s.data := by
  have hd := call_data cl s (.findOne db0 coll filter)
  unfold mongo.FindOne
  generalize mongo.call cl s _ = r at hd ⊢
  obtain ⟨e, s1⟩ := r
  cases e with
  | some e => exact hd
  | none =>
    simp only
    cases List.find? (matchesFilter filter) (s1.data db0 coll) <;> exact hd

theorem mongo_Find_data (cl : MongoClient) (s : Server) (db0 coll : String) (filter : Doc) :
    (mongo.Find cl s db0 coll filter).2.data = s.data := by
  have hd := call_data cl s (.find db0 coll filter)
  unfold mongo.Find
  generalize mongo.call cl s _ = r at hd ⊢
  obtain ⟨e, s1⟩ := r
  cases e <;> exact hd

theorem mongo_CountDocuments_data (cl : MongoClient) (s : Server) (db0 coll : String)
    (filter : Doc) : (mongo.CountDocuments cl s db0 coll filter).2.data = s.data := by
  have hd := call_data cl s (.countDocuments db0 coll filter)
  unfold mongo.CountDocuments
  generalize mongo.call cl s _ = r at hd ⊢
  obtain ⟨e, s1⟩ := r
  cases e <;> exact hd

theorem mongo_Connect_data (s : Server) (url : String) :
    (mongo.Connect s url).2.data = s.data := by
  have hd := receive_data s (.connect url)
  unfold mongo.Connect
  generalize s.receive _ = r at hd ⊢
  obtain ⟨e, s1⟩ := r
  cases e <;> exact hd

theorem mongo_Disconnect_data (cl : MongoClient) (s : Server) :
    (mongo.Disconnect cl s).2.data = s.data := by
  have hd := call_data cl s .disconnect
  unfold mongo.Disconnect
  generalize mongo.call cl s _ = r at hd ⊢
  obtain ⟨e, s1⟩ := r
  cases e <;> exact hd

theorem mongo_DeleteOne_effect (cl : MongoClient) (s : Server) (db0 coll : String)
    (filter : Doc) (db c : String) :
    (mongo.DeleteOne cl s db0 coll filter).2.data db c = s.data db c
    ∨ (db = db0 ∧ c = coll ∧ (mongo.DeleteOne cl s db0 coll filter).2.data db c
        = removeFirst (matchesFilter filter) (s.data db c)) := by
  have hd := call_data cl s (.deleteOne db0 coll filter)
  unfold mongo.DeleteOne
  generalize mongo.call cl s _ = r at hd ⊢
  obtain ⟨e, s1⟩ := r
  simp only at hd
  cases e with
  | some e => left; simp [hd]
  | none =>
    simp only
    split
    · by_cases hdc : db = db0 ∧ c = coll
      · right
        obtain ⟨h1, h2⟩ := hdc
        subst h1 h2
        exact ⟨rfl, rfl, by simp [hd]⟩
      · left; simp only [setColl_data_apply, if_neg hdc, hd]
    · left; simp [hd]

theorem mongo_InsertMany_effect (cl : MongoClient) (s : Server) (db0 coll : String)
    (documents : List Doc) (db c : String) :
    (mongo.InsertMany cl s db0 coll documents).2.data db c = s.data db c
    ∨ (db = db0 ∧ c = coll ∧ (mongo.InsertMany cl s db0 coll documents).2.data db c
        = s.data db c ++ documents) := by
  unfold mongo.InsertMany
  cases documents with
  | nil => left; rfl
  | cons x xs =>
    simp only
    have hd := call_data cl s (.insertMany db0 coll (x :: xs))
    generalize mongo.call cl s _ = r at hd ⊢
    obtain ⟨e, s1⟩ := r
    simp only at hd
    cases e with
    | some e => left; simp [hd]
    | none =>
      simp only
      by_cases hdc : db = db0 ∧ c = coll
      · right
        obtain ⟨h1, h2⟩ := hdc
        subst h1 h2
        exact ⟨rfl, rfl, by simp [hd]⟩
      · left; simp only [setColl_data_apply, if_neg hdc, hd]

theorem mongo_DropDatabase_effect (cl : MongoClient) (s : Server) (db0 : String)
    (db c : String) :
    (mongo.DropDatabase cl s db0).2.data db c = s.data db c
    ∨ (db = db0 ∧ (mongo.DropDatabase cl s db0).2.data db c = []) := by
  have hd := call_data cl s (.dropDatabase db0)
  unfold mongo.DropDatabase
  generalize mongo.call cl s _ = r at hd ⊢
  obtain ⟨e, s1⟩ := r
  simp only at hd
  cases e with
  | some e => left; simp [hd]
  | none =>
    simp only
    by_cases hdb : db = db0
    · right; exact ⟨hdb, by simp [hdb]⟩
    · left; simp [hdb, hd]

theorem GetOne_data (d : DbClient) (s : Server) (collName : String) (filter : Doc) :
    (d.GetOne s collName filter).2.data = s.data := by
  unfold DbClient.GetOne
  cases d.client with
  | none => rfl
  | some c =>
    simp only
    have := mongo_FindOne_data c s d.DbName collName filter
    generalize mongo.FindOne c s d.DbName collName filter = res at this ⊢
    obtain ⟨⟨r, e⟩, s1⟩ := res
    cases e <;> exact this

theorem GetMany_data (d : DbClient) (s : Server) (collName : String) (filter : Doc) :
    (d.GetMany s collName filter).2.data = s.data := by
  unfold DbClient.GetMany
  cases d.client with
  | none => rfl
  | some c =>
    simp only
    have := mongo_Find_data c s d.DbName collName filter
    generalize mongo.Find c s d.DbName collName filter = res at this ⊢
    obtain ⟨⟨r, e⟩, s1⟩ := res
    cases e <;> exact this

theorem CountRecords_data (d : DbClient) (s : Server) (collName : String) (filter : Doc) :
    (d.CountRecords s collName filter).2.data = s.data := by
  unfold DbClient.CountRecords
  cases d.client with
  | none => rfl
  | some c => exact mongo_CountDocuments_data c s d.DbName collName filter

theorem UpdateInsertOne_effect (d : DbClient) (s : Server) (collName : String)
    (filter putData : Doc) (db c : String) :
    (d.UpdateInsertOne s collName filter putData).2.data db c = s.data db c
    ∨ (c = collName ∧ UpsertEffect filter [("$set", .doc putData)] (s.data db c)
        ((d.UpdateInsertOne s collName filter putData).2.data db c)) := by
  unfold DbClient.UpdateInsertOne
  cases d.client with
  | none => left; rfl
  | some cl =>
    simp only
    have := mongo_UpdateOne_effect cl s d.DbName collName filter [("$set", .doc putData)] true db c
    generalize mongo.UpdateOne cl s d.DbName collName filter [("$set", .doc putData)] true = res at this ⊢
    obtain ⟨⟨r, e⟩, s1⟩ := res
    cases e with
    | none => exact this.imp id (fun h => ⟨h.2.1, h.2.2⟩)
    | some e => exact this.imp id (fun h => ⟨h.2.1, h.2.2⟩)

theorem GetIncrementedOne_effect (d : DbClient) (s : Server) (collName : String)
    (filter toUpdate : Doc) (db c : String) :
    (d.GetIncrementedOne s collName filter toUpdate).2.data db c = s.data db c
    ∨ (c = collName ∧ UpsertEffect filter toUpdate (s.data db c)
        ((d.GetIncrementedOne s collName filter toUpdate).2.data db c)) := by
  unfold DbClient.GetIncrementedOne
  cases d.client with
  | none => left; rfl
  | some cl =>
    simp only
    have := mongo_FindOneAndUpdate_effect cl s d.DbName collName filter toUpdate db c
    generalize mongo.FindOneAndUpdate cl s d.DbName collName filter toUpdate true true = res at this ⊢
    obtain ⟨⟨r, e⟩, s1⟩ := res
    cases e with
    | none => exact this.imp id (fun h => ⟨h.2.1, h.2.2⟩)
    | some e => exact this.imp id (fun h => ⟨h.2.1, h.2.2⟩)

theorem DeleteOne_effect (d : DbClient) (s : Server) (collName : String) (filter : Doc)
    (db c : String) :
    (d.DeleteOne s collName filter).2.data db c = s.data db c
    ∨ (c = collName ∧ (d.DeleteOne s collName filter).2.data db c
        = removeFirst (matchesFilter filter) (s.data db c)) := by
  unfold DbClient.DeleteOne
  cases d.client with
  | none => left; rfl
  | some cl =>
    simp only
    have := mongo_DeleteOne_effect cl s d.DbName collName filter db c
    generalize mongo.DeleteOne cl s d.DbName collName filter = res at this ⊢
    obtain ⟨⟨r, e⟩, s1⟩ := res
    cases e with
    | none => exact this.imp id (fun h => ⟨h.2.1, h.2.2⟩)
    | some e => exact this.imp id (fun h => ⟨h.2.1, h.2.2⟩)

theorem InsertMany_effect (d : DbClient) (s : Server) (collName : String)
    (putData : List Doc) (db c : String) :
    (d.InsertMany s collName putData).2.data db c = s.data db c
    ∨ (c = collName ∧ (d.InsertMany s collName putData).2.data db c
        = s.data db c ++ putData) := by
  unfold DbClient.InsertMany
  cases d.client with
  | none => left; rfl
  | some cl =>
    simp only
    have := mongo_InsertMany_effect cl s d.DbName collName putData db c
    generalize mongo.InsertMany cl s d.DbName collName putData = res at this ⊢
    obtain ⟨⟨r, e⟩, s1⟩ := res
    cases e with
    | none =>
      simp only
      split <;> exact this.imp id (fun h => ⟨h.2.1, h.2.2⟩)
    | some e => exact this.imp id (fun h => ⟨h.2.1, h.2.2⟩)

theorem DropDb_effect (d : DbClient) (s : Server) (db c : String) :
    (d.DropDb s).2.data db c = s.data db c ∨ (d.DropDb s).2.data db c = [] := by
  unfold DbClient.DropDb
  cases d.client with
  | none => left; rfl
  | some cl => exact (mongo_DropDatabase_effect cl s d.DbName db c).imp id (fun h => h.2)

theorem ConnectDB_data (d : DbClient) (s : Server) : (d.ConnectDB s).2.data = s.data := by
  unfold DbClient.ConnectDB
  have := mongo_Connect_data s d.DbUrl
  generalize mongo.Connect s d.DbUrl = res at this ⊢
  obtain ⟨⟨r, e⟩, s1⟩ := res
  cases e <;> exact this

theorem DisconnectDB_data (d : DbClient) (s : Server) :
    (d.DisconnectDB s).2.data = s.data := by
  unfold DbClient.DisconnectDB
  cases d.client with
  | none => rfl
  | some cl =>
    simp only
    have := mongo_Disconnect_data cl s
    generalize mongo.Disconnect cl s = res at this ⊢
    obtain ⟨⟨r, e⟩, s1⟩ := res
    cases e <;> exact this

/-! ### Effect of the facade operations on the documents -/

theorem GetProv_srv (d : DbApi) (s : Server) (a : String) :
    (d.GetCamaraProvQoDAppServerData s a).2
      = (d.cli.GetOne s COLLECTION_CAMARA_QOD_PROV_SESSION (provFilter a)).2 := by
  unfold DbApi.GetCamaraProvQoDAppServerData provFilter
  simp only
  generalize d.cli.GetOne s COLLECTION_CAMARA_QOD_PROV_SESSION _ = res
  obtain ⟨⟨r, e⟩, s1⟩ := res
  cases e with
  | some e => rfl
  | none =>
    simp only
    generalize decodeProveAppServerData (r.getD []) = dr
    obtain ⟨x, e2⟩ := dr
    cases e2 <;> rfl

theorem GetFlow_srv (d : DbApi) (s : Server) (u a : String) :
    (d.GetCamaraQoDServiceUeFlow s u a).2
      = (d.cli.GetOne s COLLECTION_CAMARA_QOD_SERVICE_UE_FLOW (flowFilter u a)).2 := by
  unfold DbApi.GetCamaraQoDServiceUeFlow flowFilter
  simp only
  generalize d.cli.GetOne s COLLECTION_CAMARA_QOD_SERVICE_UE_FLOW _ = res
  obtain ⟨⟨r, e⟩, s1⟩ := res
  cases e with
  | some e => rfl
  | none =>
    simp only
    generalize decodeServiceUeFlow (r.getD []) = dr
    obtain ⟨x, e2⟩ := dr
    cases e2 <;> rfl

theorem Increment_srv (d : DbApi) (s : Server) (u a : String) :
    (d.GetCamaraQoDServiceIncrementUeFlow s u a).2
      = (d.cli.GetIncrementedOne s COLLECTION_CAMARA_QOD_SERVICE_UE_FLOW (flowFilter u a)
          flowIncrement).2 := by
  unfold DbApi.GetCamaraQoDServiceIncrementUeFlow flowFilter flowIncrement
  simp only
  generalize d.cli.GetIncrementedOne s COLLECTION_CAMARA_QOD_SERVICE_UE_FLOW _ _ = res
  obtain ⟨⟨r, e⟩, s1⟩ := res
  cases e with
  | some e => rfl
  | none =>
    simp only
    generalize decodeServiceUeFlow (r.getD []) = dr
    obtain ⟨x, e2⟩ := dr
    cases e2 <;> rfl

theorem GetSession_srv (d : DbApi) (s : Server) (i : String) :
    (d.GetCamaraQoDServiceUeSession s i).2
      = (d.cli.GetOne s COLLECTION_CAMARA_QOD_SERVICE_SESSION (sessionFilter i)).2 := by
  unfold DbApi.GetCamaraQoDServiceUeSession sessionFilter
  simp only
  generalize d.cli.GetOne s COLLECTION_CAMARA_QOD_SERVICE_SESSION _ = res
  obtain ⟨⟨r, e⟩, s1⟩ := res
  cases e with
  | some e => rfl
  | none =>
    simp only
    generalize decodeServiceUeSession (r.getD []) = dr
    obtain ⟨x, e2⟩ := dr
    cases e2 <;> rfl

theorem NumSessions_data (d : DbApi) (s : Server) (u a : String) :
    (d.GetNumCamaraQoDSericeUeSessions s u a).2.data = s.data := by
  unfold DbApi.GetNumCamaraQoDSericeUeSessions
  simp only
  have := CountRecords_data d.cli s COLLECTION_CAMARA_QOD_SERVICE_SESSION
    [("ueIpv4Addr", .str u), ("scsAsId", .str a)]
  generalize d.cli.CountRecords s COLLECTION_CAMARA_QOD_SERVICE_SESSION _ = res at this ⊢
  obtain ⟨⟨r, e⟩, s1⟩ := res
  cases e <;> exact this

theorem AllSessions_data (d : DbApi) (s : Server) (u a q : String) :
    (d.GetAllCamaraQoDServiceUeSession s u a q).2.data = s.data := by
  unfold DbApi.GetAllCamaraQoDServiceUeSession
  simp only
  have := GetMany_data d.cli s COLLECTION_CAMARA_QOD_SERVICE_SESSION
    [("ueIpv4Addr", .str u), ("scsAsId", .str a), ("sessionReq.Qos", .str q)]
  generalize d.cli.GetMany s COLLECTION_CAMARA_QOD_SERVICE_SESSION _ = res at this ⊢
  obtain ⟨⟨r, e⟩, s1⟩ := res
  cases e with
  | some e => exact this
  | none =>
    simp only
    split
    · exact this
    · generalize (decodeMapStructureList (r.getD []) :
        Option (List ServiceQoDUeSession) × Option Error) = dr
      obtain ⟨x, e2⟩ := dr
      cases e2 <;> exact this

theorem AllFlows_data (d : DbApi) (s : Server) :
    (d.GetAllCamaraQoDServiceUeFlows s).2.data = s.data := by
  unfold DbApi.GetAllCamaraQoDServiceUeFlows
  simp only
  have := GetMany_data d.cli s COLLECTION_CAMARA_QOD_SERVICE_UE_FLOW []
  generalize d.cli.GetMany s COLLECTION_CAMARA_QOD_SERVICE_UE_FLOW _ = res at this ⊢
  obtain ⟨⟨r, e⟩, s1⟩ := res
  cases e with
  | some e => exact this
  | none =>
    simp only
    split
    · exact this
    · generalize (decodeMapStructureList (r.getD []) :
        Option (List ServiceQoDUeFlow) × Option Error) = dr
      obtain ⟨x, e2⟩ := dr
      cases e2 <;> exact this

theorem PutMany_effect (d : DbApi) (s : Server) (data : List ProvQoDAppServerData)
    (db c : String) :
    (d.PutManyCamaraProvQoDAppServerData s data).2.data db c = s.data db c
    ∨ (c = COLLECTION_CAMARA_QOD_PROV_SESSION
        ∧ ∃ docs, (d.PutManyCamaraProvQoDAppServerData s data).2.data db c
          = s.data db c ++ docs) := by
  unfold DbApi.PutManyCamaraProvQoDAppServerData
  generalize DbApi.PutManyCamaraProvQoDAppServerData.encode data [] = enc
  obtain ⟨putData, e⟩ := enc
  cases e with
  | some e => left; rfl
  | none =>
    exact (InsertMany_effect d.cli s COLLECTION_CAMARA_QOD_PROV_SESSION putData db c).imp id
      (fun h => ⟨h.1, putData, h.2⟩)

/-- Every facade operation leaves the documents of a collection as they were or changes them as
`OpEffect` describes. -/
theorem step_effect (w : World) (op : Op) (db c : String) :
    (step w op).srv.data db c = w.srv.data db c
    ∨ OpEffect op c (w.srv.data db c) ((step w op).srv.data db c) := by
  cases op with
  | Connect =>
    left
    simp only [step, DbApi.Connect]
    rw [ConnectDB_data]
  | Disconnect =>
    left
    simp only [step, DbApi.Disconnect]
    rw [DisconnectDB_data]
  | DropDb =>
    simp only [step, DbApi.DropDb, OpEffect]
    exact DropDb_effect w.api.cli w.srv db c
  | GetProv a =>
    left
    simp only [step]
    rw [GetProv_srv, GetOne_data]
  | PutProv a data =>
    simp only [step, OpEffect, PutProv_eq]
    exact UpdateInsertOne_effect _ _ _ _ _ db c
  | PutManyProv data =>
    simp only [step, OpEffect]
    exact PutMany_effect _ _ _ db c
  | GetFlow u a =>
    left
    simp only [step]
    rw [GetFlow_srv, GetOne_data]
  | PutFlow u a data =>
    simp only [step, OpEffect, PutFlow_eq]
    exact UpdateInsertOne_effect _ _ _ _ _ db c
  | IncrementFlow u a =>
    simp only [step, OpEffect, Increment_srv]
    exact GetIncrementedOne_effect _ _ _ _ _ db c
  | GetSession i =>
    left
    simp only [step]
    rw [GetSession_srv, GetOne_data]
  | PutSession u i data =>
    simp only [step, OpEffect, PutSession_eq]
    exact UpdateInsertOne_effect _ _ _ _ _ db c
  | DeleteSession i =>
    simp only [step, OpEffect]
    exact DeleteOne_effect _ _ _ _ db c
  | NumSessions u a =>
    left
    simp only [step]
    rw [NumSessions_data]
  | AllSessions u a q =>
    left
    simp only [step]
    rw [AllSessions_data]
  | AllFlows =>
    left
    simp only [step]
    rw [AllFlows_data]

/-! ### Uniqueness of keys -/

theorem map_replaceFirst_key {K : Type} (κ : Doc → K) (p : Doc → Bool) (new : Doc)
    (l : List Doc) (h : ∀ x, x ∈ l → p x = true → κ new = κ x) :
    (replaceFirst p new l).map κ = l.map κ := by
  induction l with
  | nil => rfl
  | cons x xs ih =>
    unfold replaceFirst
    by_cases hx : p x = true
    · simp [hx, h x (List.mem_cons_self _ _) hx]
    · have hx' : p x = false := by simpa using hx
      simp only [hx', Bool.false_eq_true, if_false, List.map_cons]
      rw [ih (fun y hy => h y (List.mem_cons_of_mem _ hy))]

theorem removeFirst_sublist (p : Doc → Bool) (l : List Doc) :
    (removeFirst p l).Sublist l := by
  induction l with
  | nil => exact List.Sublist.refl _
  | cons x xs ih =>
    unfold removeFirst
    split
    · exact List.sublist_cons_self x xs
    · exact ih.cons₂ x

theorem nodup_upsert {K : Type} (κ : Doc → K) (filter update : Doc) (K0 : K)
    (hmatch : ∀ x, matchesFilter filter x = true ↔ κ x = K0)
    (hkeep : ∀ x new, applyUpdate update x = .ok new → (κ x = K0 ∨ x = filter) → κ new = K0)
    (l l' : List Doc) (heff : UpsertEffect filter update l l') (hnd : (l.map κ).Nodup) :
    (l'.map κ).Nodup := by
  rcases heff with ⟨old, new, hfind, hup, hl'⟩ | ⟨new, hfind, hup, hl'⟩
  · obtain ⟨_, hp⟩ := find_some_mem _ _ _ hfind
    have hnew : κ new = K0 := hkeep old new hup (Or.inl ((hmatch old).mp hp))
    rw [hl', map_replaceFirst_key κ _ new l
      (fun x _ hx => by rw [hnew, (hmatch x).mp hx])]
    exact hnd
  · have hnew : κ new = K0 := hkeep filter new hup (Or.inr rfl)
    rw [hl', List.map_append, List.map_singleton]
    apply List.Nodup.append hnd (List.nodup_singleton _)
    intro k hk1 hk2
    rw [List.mem_singleton] at hk2
    obtain ⟨x, hx, hkx⟩ := List.mem_map.mp hk1
    have hpx := find_none_of_forall _ _ hfind x hx
    have : matchesFilter filter x = true := (hmatch x).mpr (by rw [hkx, hk2, hnew])
    rw [this] at hpx; cases hpx

theorem increment_ok_form (x new : Doc) (h : applyUpdate flowIncrement x = .ok new) :
    (getField x "FlowCounter" = none ∧ new = setField x "FlowCounter" (.int 1))
    ∨ (∃ n, getField x "FlowCounter" = some (.int n)
        ∧ new = setField x "FlowCounter" (.int (n + 1))) := by
  simp only [applyUpdate, flowIncrement, applyOperators, applyOperator, incFields, incField]
    at h
  cases hg : getField x "FlowCounter" with
  | none =>
    left
    simp [hg] at h
    exact ⟨rfl, h.symm⟩
  | some v =>
    cases v with
    | int n =>
      right
      simp [hg] at h
      exact ⟨n, rfl, h.symm⟩
    | null => simp [hg] at h
    | bool b => simp [hg] at h
    | str t => simp [hg] at h
    | doc fs => simp [hg] at h

theorem provKey_iff (a : String) (x : Doc) :
    matchesFilter (provFilter a) x = true ↔ provKey x = some (.str a) := by
  simp [matches_provFilter, provKey]

theorem flowKey_iff (u a : String) (x : Doc) :
    matchesFilter (flowFilter u a) x = true ↔ flowKey x = (some (.str u), some (.str a)) := by
  simp [matches_flowFilter, flowKey, Prod.ext_iff]

theorem sessionPutKey_iff (u i : String) (x : Doc) :
    matchesFilter (sessionPutFilter u i) x = true
      ↔ sessionPutKey x = (some (.str u), some (.str i)) := by
  simp [matches_sessionPutFilter, sessionPutKey, Prod.ext_iff]

theorem collections_distinct :
    COLLECTION_CAMARA_QOD_PROV_SESSION ≠ COLLECTION_CAMARA_QOD_SERVICE_UE_FLOW
    ∧ COLLECTION_CAMARA_QOD_PROV_SESSION ≠ COLLECTION_CAMARA_QOD_SERVICE_SESSION
    ∧ COLLECTION_CAMARA_QOD_SERVICE_UE_FLOW ≠ COLLECTION_CAMARA_QOD_SERVICE_SESSION := by
  decide

theorem step_prov_unique (w : World) (op : Op) (hop : op.keyed) (db : String)
    (h : ProvKeysUnique w.srv db) : ProvKeysUnique (step w op).srv db := by
  unfold ProvKeysUnique at h ⊢
  rcases step_effect w op db COLLECTION_CAMARA_QOD_PROV_SESSION with he | he
  · rw [he]; exact h
  · obtain ⟨h1, h2, h3⟩ := collections_distinct
    cases op with
    | DropDb => simp only [OpEffect] at he; rw [he]; exact List.nodup_nil
    | PutProv a data =>
      simp only [OpEffect] at he
      simp only [Op.keyed] at hop
      subst hop
      refine nodup_upsert provKey _ _ (some (.str data.AsIpv4Addr)) (provKey_iff _) ?_ _ _
        he.2 h
      intro x new hup _
      rw [applyUpdate_set] at hup
      cases hup
      simp [provKey, setFields, JsonStruct.json, getField_setField]
    | PutManyProv data => exact absurd hop (by simp [Op.keyed])
    | PutFlow u a data => simp only [OpEffect] at he; exact absurd he.1 h1
    | IncrementFlow u a => simp only [OpEffect] at he; exact absurd he.1 h1
    | PutSession u i data => simp only [OpEffect] at he; exact absurd he.1 h2
    | DeleteSession i => simp only [OpEffect] at he; exact absurd he.1 h2
    | Connect => exact absurd he (by simp [OpEffect])
    | Disconnect => exact absurd he (by simp [OpEffect])
    | GetProv a => exact absurd he (by simp [OpEffect])
    | GetFlow u a => exact absurd he (by simp [OpEffect])
    | GetSession i => exact absurd he (by simp [OpEffect])
    | NumSessions u a => exact absurd he (by simp [OpEffect])
    | AllSessions u a q => exact absurd he (by simp [OpEffect])
    | AllFlows => exact absurd he (by simp [OpEffect])

theorem step_flow_unique (w : World) (op : Op) (hop : op.keyed) (db : String)
    (h : FlowKeysUnique w.srv db) : FlowKeysUnique (step w op).srv db := by
  unfold FlowKeysUnique at h ⊢
  rcases step_effect w op db COLLECTION_CAMARA_QOD_SERVICE_UE_FLOW with he | he
  · rw [he]; exact h
  · obtain ⟨h1, h2, h3⟩ := collections_distinct
    cases op with
    | DropDb => simp only [OpEffect] at he; rw [he]; exact List.nodup_nil
    | PutFlow u a data =>
      simp only [OpEffect] at he
      simp only [Op.keyed] at hop
      obtain ⟨hu, ha⟩ := hop
      subst hu ha
      refine nodup_upsert flowKey _ _ (some (.str data.UeIpv4Addr), some (.str data.ScsAsId))
        (flowKey_iff _ _) ?_ _ _ he.2 h
      intro x new hup _
      rw [applyUpdate_set] at hup
      cases hup
      simp [flowKey, setFields, JsonStruct.json, getField_setField]
    | IncrementFlow u a =>
      simp only [OpEffect] at he
      refine nodup_upsert flowKey _ _ (some (.str u), some (.str a))
        (flowKey_iff _ _) ?_ _ _ he.2 h
      intro x new hup hx
      have hkx : flowKey x = (some (.str u), some (.str a)) := by
        rcases hx with hx | hx
        · exact hx
        · rw [hx]; simp [flowKey, flowFilter, getField]
      rcases increment_ok_form x new hup with ⟨_, hn⟩ | ⟨n, _, hn⟩ <;>
        · rw [← hkx, hn]
          simp [flowKey, getField_setField]
    | PutManyProv data => exact absurd hop (by simp [Op.keyed])
    | PutProv a data => simp only [OpEffect] at he; exact absurd he.1 h1.symm
    | PutSession u i data => simp only [OpEffect] at he; exact absurd he.1 h3
    | DeleteSession i => simp only [OpEffect] at he; exact absurd he.1 h3
    | Connect => exact absurd he (by simp [OpEffect])
    | Disconnect => exact absurd he (by simp [OpEffect])
    | GetProv a => exact absurd he (by simp [OpEffect])
    | GetFlow u a => exact absurd he (by simp [OpEffect])
    | GetSession i => exact absurd he (by simp [OpEffect])
    | NumSessions u a => exact absurd he (by simp [OpEffect])
    | AllSessions u a q => exact absurd he (by simp [OpEffect])
    | AllFlows => exact absurd he (by simp [OpEffect])

theorem step_sessionPut_unique (w : World) (op : Op) (hop : op.keyed) (db : String)
    (h : SessionPutKeysUnique w.srv db) : SessionPutKeysUnique (step w op).srv db := by
  unfold SessionPutKeysUnique at h ⊢
  rcases step_effect w op db COLLECTION_CAMARA_QOD_SERVICE_SESSION with he | he
  · rw [he]; exact h
  · obtain ⟨h1, h2, h3⟩ := collections_distinct
    cases op with
    | DropDb => simp only [OpEffect] at he; rw [he]; exact List.nodup_nil
    | PutSession u i data =>
      simp only [OpEffect] at he
      simp only [Op.keyed] at hop
      obtain ⟨hu, hi⟩ := hop
      subst hu hi
      refine nodup_upsert sessionPutKey _ _
        (some (.str data.UeIpv4Addr), some (.str data.SessionId))
        (sessionPutKey_iff _ _) ?_ _ _ he.2 h
      intro x new hup _
      rw [applyUpdate_set] at hup
      cases hup
      simp [sessionPutKey, setFields, JsonStruct.json, getField_setField]
    | DeleteSession i =>
      simp only [OpEffect] at he
      rw [he.2]
      exact h.sublist ((removeFirst_sublist _ _).map sessionPutKey)
    | PutManyProv data => exact absurd hop (by simp [Op.keyed])
    | PutProv a data => simp only [OpEffect] at he; exact absurd he.1 h2.symm
    | PutFlow u a data => simp only [OpEffect] at he; exact absurd he.1 h3.symm
    | IncrementFlow u a => simp only [OpEffect] at he; exact absurd he.1 h3.symm
    | Connect => exact absurd he (by simp [OpEffect])
    | Disconnect => exact absurd he (by simp [OpEffect])
    | GetProv a => exact absurd he (by simp [OpEffect])
    | GetFlow u a => exact absurd he (by simp [OpEffect])
    | GetSession i => exact absurd he (by simp [OpEffect])
    | NumSessions u a => exact absurd he (by simp [OpEffect])
    | AllSessions u a q => exact absurd he (by simp [OpEffect])
    | AllFlows => exact absurd he (by simp [OpEffect])

/-- C3 (amended): starting from an empty store, after every sequence of facade operations in
which each Put carries a record holding the key passed to the call and the bulk insert
`PutManyCamaraProvQoDAppServerData` is not used, in every database the provisioned-data
collection never holds two documents with the same `asIpv4Addr`, the flow collection never
holds two documents with the same `(ueIpv4Addr, scsAsId)` pair, and the session collection
never holds two documents with the same `(ueIpv4Addr, sessionId)` pair, the key its upsert
filters on. -/
theorem natural_keys_unique_for_keyed_calls (dbName dbUrl : String)
    (faults : List (Option Error)) (ops : List Op) (hops : ∀ op, op ∈ ops → op.keyed)
    (db : String) :
    ProvKeysUnique (run (initWorld dbName dbUrl faults) ops).srv db
    ∧ FlowKeysUnique (run (initWorld dbName dbUrl faults) ops).srv db
    ∧ SessionPutKeysUnique (run (initWorld dbName dbUrl faults) ops).srv db := by
  induction ops using List.reverseRecOn with
  | nil =>
    simp [run, initWorld, Server.empty, ProvKeysUnique, FlowKeysUnique, SessionPutKeysUnique]
  | append_singleton ops op ih =>
    have hop : op.keyed := hops op (by simp)
    obtain ⟨h1, h2, h3⟩ := ih (fun o ho => hops o (by simp [ho]))
    rw [run_snoc]
    exact ⟨step_prov_unique _ op hop db h1, step_flow_unique _ op hop db h2,
      step_sessionPut_unique _ op hop db h3⟩

/-! ### The stored flow counter -/

theorem find_replaceFirst_other (p q : Doc → Bool) (new : Doc) (l : List Doc)
    (hpq : ∀ x, x ∈ l → p x = true → q x = false) (hnew : q new = false) :
    (replaceFirst p new l).find? q = l.find? q := by
  induction l with
  | nil => rfl
  | cons x xs ih =>
    unfold replaceFirst
    by_cases hx : p x = true
    · simp [hx, List.find?_cons, hnew, hpq x (List.mem_cons_self _ _) hx]
    · have hx' : p x = false := by simpa using hx
      simp only [hx', Bool.false_eq_true, if_false, List.find?_cons]
      rw [ih (fun y hy => hpq y (List.mem_cons_of_mem _ hy))]

theorem find_append_other (q : Doc → Bool) (new : Doc) (l : List Doc) (hnew : q new = false) :
    (l ++ [new]).find? q = l.find? q := by
  induction l with
  | nil => simp [hnew]
  | cons x xs ih => simp only [List.cons_append, List.find?_cons, ih]

theorem flowKey_increment (x new : Doc) (h : applyUpdate flowIncrement x = .ok new) :
    flowKey new = flowKey x := by
  rcases increment_ok_form x new h with ⟨_, hn⟩ | ⟨n, _, hn⟩ <;>
    · rw [hn]; simp [flowKey, getField_setField]

theorem flowKey_filter (u a : String) :
    flowKey (flowFilter u a) = (some (.str u), some (.str a)) := by
  simp [flowKey, flowFilter, getField]

theorem not_matches_of_flowKey (u a ue scs : String) (x : Doc)
    (hk : flowKey x = (some (.str u), some (.str a))) (hne : ¬ (u = ue ∧ a = scs)) :
    matchesFilter (flowFilter ue scs) x = false := by
  cases hm : matchesFilter (flowFilter ue scs) x with
  | false => rfl
  | true =>
    have := (flowKey_iff ue scs x).mp hm
    rw [hk] at this
    simp only [Prod.mk.injEq, Option.some.injEq, Value.str.injEq] at this
    exact absurd this hne

theorem increment_other_key (u a ue scs : String) (hne : ¬ (u = ue ∧ a = scs))
    (l l' : List Doc) (heff : UpsertEffect (flowFilter u a) flowIncrement l l') :
    l'.find? (matchesFilter (flowFilter ue scs)) = l.find? (matchesFilter (flowFilter ue scs)) := by
  rcases heff with ⟨old, new, hfind, hup, hl'⟩ | ⟨new, hfind, hup, hl'⟩
  · obtain ⟨_, hp⟩ := find_some_mem _ _ _ hfind
    rw [hl']
    apply find_replaceFirst_other
    · intro x _ hx
      exact not_matches_of_flowKey u a ue scs x ((flowKey_iff u a x).mp hx) hne
    · apply not_matches_of_flowKey u a ue scs new _ hne
      rw [flowKey_increment old new hup]
      exact (flowKey_iff u a old).mp hp
  · rw [hl']
    apply find_append_other
    apply not_matches_of_flowKey u a ue scs new _ hne
    rw [flowKey_increment _ new hup]
    exact flowKey_filter u a

theorem increment_same_key (ue scs : String) (l l' : List Doc)
    (heff : UpsertEffect (flowFilter ue scs) flowIncrement l l') :
    ((l.find? (matchesFilter (flowFilter ue scs))).bind (fun x => getField x "FlowCounter") = none
      ∧ (l'.find? (matchesFilter (flowFilter ue scs))).bind (fun x => getField x "FlowCounter")
          = some (.int 1))
    ∨ ∃ n, (l.find? (matchesFilter (flowFilter ue scs))).bind
          (fun x => getField x "FlowCounter") = some (.int n)
        ∧ (l'.find? (matchesFilter (flowFilter ue scs))).bind
          (fun x => getField x "FlowCounter") = some (.int (n + 1)) := by
  rcases heff with ⟨old, new, hfind, hup, hl'⟩ | ⟨new, hfind, hup, hl'⟩
  · obtain ⟨hmem, hp⟩ := find_some_mem _ _ _ hfind
    have hnew : matchesFilter (flowFilter ue scs) new = true := by
      rw [flowKey_iff, flowKey_increment old new hup]
      exact (flowKey_iff ue scs old).mp hp
    have hfind' : l'.find? (matchesFilter (flowFilter ue scs)) = some new := by
      rw [hl']
      exact find_replaceFirst _ _ _ _ ⟨old, hmem, hp⟩ (fun _ _ h => h) hnew
    rw [hfind, hfind']
    simp only [Option.bind]
    rcases increment_ok_form old new hup with ⟨hg, hn⟩ | ⟨n, hg, hn⟩
    · left; exact ⟨hg, by rw [hn, getField_setField]; simp⟩
    · right; exact ⟨n, hg, by rw [hn, getField_setField]; simp⟩
  · have hnew : matchesFilter (flowFilter ue scs) new = true := by
      rw [flowKey_iff, flowKey_increment _ new hup]
      exact flowKey_filter ue scs
    have hfind' : l'.find? (matchesFilter (flowFilter ue scs)) = some new := by
      rw [hl']
      exact find_append_new _ _ _ (find_none_of_forall _ _ hfind) hnew
    rw [hfind, hfind']
    simp only [Option.bind]
    left
    rcases increment_ok_form _ new hup with ⟨_, hn⟩ | ⟨n, hg, _⟩
    · exact ⟨trivial, by rw [hn, getField_setField]; simp⟩
    · simp [flowFilter, getField] at hg

/-- C4 (amended): for every facade step and every key `(ueIpv4Addr, scsAsId)`, the stored
`FlowCounter` of the key's flow record is left unchanged by every step other than a
`PutCamaraQoDServiceUeFlow`, a `DropDb` and a `GetCamaraQoDServiceIncrementUeFlow` for that key;
and a `GetCamaraQoDServiceIncrementUeFlow` step for that key never decreases it: it leaves it
unchanged (when the call fails), creates it with value 1, or advances it by exactly one. -/
theorem flow_counter_changes_only_by_put_drop_increment (w : World) (op : Op)
    (db ue scsAsId : String) :
    ((∀ u a data, op ≠ .PutFlow u a data) → op ≠ .DropDb → op ≠ .IncrementFlow ue scsAsId →
      flowCounter (step w op).srv db ue scsAsId = flowCounter w.srv db ue scsAsId)
    ∧ (op = .IncrementFlow ue scsAsId →
      flowCounter (step w op).srv db ue scsAsId = flowCounter w.srv db ue scsAsId
      ∨ (flowCounter w.srv db ue scsAsId = none
          ∧ flowCounter (step w op).srv db ue scsAsId = some (.int 1))
      ∨ ∃ n, flowCounter w.srv db ue scsAsId = some (.int n)
          ∧ flowCounter (step w op).srv db ue scsAsId = some (.int (n + 1))) := by
  obtain ⟨h1, h2, h3⟩ := collections_distinct
  have heff := step_effect w op db COLLECTION_CAMARA_QOD_SERVICE_UE_FLOW
  refine ⟨?_, ?_⟩
  · intro hput hdrop hinc
    unfold flowCounter
    rcases heff with he | he
    · rw [he]
    · cases op with
      | DropDb => exact absurd rfl hdrop
      | PutFlow u a data => exact absurd rfl (hput u a data)
      | IncrementFlow u a =>
        simp only [OpEffect] at he
        have hne : ¬ (u = ue ∧ a = scsAsId) := by
          rintro ⟨hu, ha⟩
          subst hu ha
          exact hinc rfl
        rw [increment_other_key u a ue scsAsId hne _ _ he.2]
      | PutManyProv data => simp only [OpEffect] at he; exact absurd he.1 h1.symm
      | PutProv a data => simp only [OpEffect] at he; exact absurd he.1 h1.symm
      | PutSession u i data => simp only [OpEffect] at he; exact absurd he.1 h3
      | DeleteSession i => simp only [OpEffect] at he; exact absurd he.1 h3
      | Connect => exact absurd he (by simp [OpEffect])
      | Disconnect => exact absurd he (by simp [OpEffect])
      | GetProv a => exact absurd he (by simp [OpEffect])
      | GetFlow u a => exact absurd he (by simp [OpEffect])
      | GetSession i => exact absurd he (by simp [OpEffect])
      | NumSessions u a => exact absurd he (by simp [OpEffect])
      | AllSessions u a q => exact absurd he (by simp [OpEffect])
      | AllFlows => exact absurd he (by simp [OpEffect])
  · intro hop
    subst hop
    unfold flowCounter
    rcases heff with he | he
    · left; rw [he]
    · right
      simp only [OpEffect] at he
      exact increment_same_key ue scsAsId _ _ he.2

/-- C3 at a short sequence of keyed calls. -/
theorem natural_keys_unique_for_keyed_calls_witness :
    (∀ op, op ∈ [Op.Connect, Op.PutProv "10.0.0.1" sampleProv] → op.keyed)
    ∧ ProvKeysUnique (run (initWorld "qod" "mongodb://localhost" [])
        [Op.Connect, Op.PutProv "10.0.0.1" sampleProv]).srv "qod" :=
  ⟨fun op hop => by
      simp only [List.mem_cons, List.mem_singleton, List.not_mem_nil, or_false] at hop
      rcases hop with h | h <;> subst h <;> simp [Op.keyed, sampleProv],
    (natural_keys_unique_for_keyed_calls "qod" "mongodb://localhost" []
      [Op.Connect, Op.PutProv "10.0.0.1" sampleProv]
      (fun op hop => by
        simp only [List.mem_cons, List.mem_singleton, List.not_mem_nil, or_false] at hop
        rcases hop with h | h <;> subst h <;> simp [Op.keyed, sampleProv]) "qod").1⟩

/-- C3 fails as stated, from an empty store: a bulk insert of one record twice leaves two
provisioned documents with the same `asIpv4Addr`; two Puts of one session identifier under two
UE addresses leave two session documents with the same `sessionId`; a Put of a flow record
under the key of another UE leaves two flow documents with the same `(ueIpv4Addr, scsAsId)`. -/
theorem natural_keys_not_unique :
    ¬ ProvKeysUnique worldAfterBulkInsert.srv "qod"
    ∧ ¬ SessionKeysUnique worldWithTwoSessions.srv "qod"
    ∧ ¬ FlowKeysUnique worldAfterFlowPuts.srv "qod" := by
  decide

/-- C4 fails as stated: after two increments the stored counter of `(10.0.0.5, app1)` is 2, and
a `PutCamaraQoDServiceUeFlow` of a record with counter 0 for that key, which is not an increment
step, sets it to 0. -/
theorem put_flow_lowers_the_counter :
    flowCounter worldAfterTwoIncrements.srv "qod" "10.0.0.5" "app1" = some (.int 2)
    ∧ flowCounter (step worldAfterTwoIncrements (.PutFlow "10.0.0.5" "app1" sampleFlow)).srv
        "qod" "10.0.0.5" "app1" = some (.int 0) := by
  decide

/-- C4 at the state after two increments: a third increment of the same key leaves the counter,
creates it, or advances it by one. -/
theorem flow_counter_changes_only_by_put_drop_increment_witness :
    flowCounter (step worldAfterTwoIncrements (.IncrementFlow "10.0.0.5" "app1")).srv "qod"
        "10.0.0.5" "app1" = flowCounter worldAfterTwoIncrements.srv "qod" "10.0.0.5" "app1"
    ∨ (flowCounter worldAfterTwoIncrements.srv "qod" "10.0.0.5" "app1" = none
        ∧ flowCounter (step worldAfterTwoIncrements (.IncrementFlow "10.0.0.5" "app1")).srv "qod"
          "10.0.0.5" "app1" = some (.int 1))
    ∨ ∃ n, flowCounter worldAfterTwoIncrements.srv "qod" "10.0.0.5" "app1" = some (.int n)
        ∧ flowCounter (step worldAfterTwoIncrements (.IncrementFlow "10.0.0.5" "app1")).srv "qod"
          "10.0.0.5" "app1" = some (.int (n + 1)) :=
  (flow_counter_changes_only_by_put_drop_increment worldAfterTwoIncrements
    (.IncrementFlow "10.0.0.5" "app1") "qod" "10.0.0.5" "app1").2 rfl

end Dbapi
